import Mathlib

/-!
Shallow embedding of the wallet-twin personal-finance ledger (Go) and proofs
about its financial mutation core.

Conventions of the embedding:
- `decimal.Decimal` (shopspring, exact base-10 fixed point) is modelled as `Rat`.
  The only division that occurs (budget progress) is modelled as exact rational
  division; shopspring rounds quotients to 16 decimal places, which agrees on
  every quotient appearing in the statements below.
- `uuid.UUID` is modelled as `Nat`, with `0` playing the role of `uuid.Nil`.
- Go strings are modelled as lists of Unicode code points (`GoStr`); `len` on a
  Go string is the UTF-8 byte count, modelled by `goLen`.
- `time.Time` values that the core compares and advances are civil dates,
  modelled by `Date` together with the standard civil-day conversion used by
  Go `time.AddDate` normalisation.
- PostgreSQL state is modelled by `DB`; a pooled connection with an optional
  open transaction is `PgConn`.  `pool.Exec` applies a write directly to the
  committed database (auto-commit); `tx.Exec` records the write in the open
  transaction, to be applied at commit and discarded at rollback.  This mirrors
  pgx semantics.  Crucially, the repository implementations in the source call
  `r.pool.Exec` / `r.pool.QueryRow` everywhere and never call `GetTx`, so the
  embedded repositories use `poolExec` even inside `withTransaction`.
- Storage-level failures (network faults etc.) are modelled by boolean fault
  flags, one per repository call site, so that "the balance-update step is
  forced to fail" (spec section 8) is expressible.
-/

namespace WalletTwin

/-- Monetary values: exact decimal arithmetic, modelled by the rationals. -/
abbrev Money := Rat

/-- Go strings as lists of Unicode code points. -/
abbrev GoStr := List Nat

/-- Unicode code points with the White_Space property, as recognised by
Go `unicode.IsSpace` (used by `strings.TrimSpace`). -/
def goIsSpace (c : Nat) : Bool :=
  c == 9 || c == 10 || c == 11 || c == 12 || c == 13 || c == 32 ||
  c == 0x85 || c == 0xA0 || c == 0x1680 ||
  (0x2000 ≤ c && c ≤ 0x200A) ||
  c == 0x2028 || c == 0x2029 || c == 0x202F || c == 0x205F || c == 0x3000

/-- Go `strings.TrimSpace`: drop leading and trailing white space. -/
def goTrimSpace (s : GoStr) : GoStr :=
  ((s.dropWhile goIsSpace).reverse.dropWhile goIsSpace).reverse

/-- Upper-casing of a single code point.  This is the ASCII fragment of Go
`unicode.ToUpper`; the non-ASCII simple case mappings of the Unicode tables
are not reproduced (no property proved below depends on them). -/
def goToUpperChar (c : Nat) : Nat :=
  if 97 ≤ c && c ≤ 122 then c - 32 else c

/-- Go `strings.ToUpper` (ASCII fragment, see `goToUpperChar`). -/
def goToUpper (s : GoStr) : GoStr := s.map goToUpperChar

/-- UTF-8 byte count of one code point. -/
def utf8Size (c : Nat) : Nat :=
  if c < 0x80 then 1 else if c < 0x800 then 2 else if c < 0x10000 then 3 else 4

/-- Go `len` on a string: its UTF-8 byte count. -/
def goLen (s : GoStr) : Nat := (s.map utf8Size).sum

/-- Civil dates (proleptic Gregorian), the granularity at which the ledger
compares and advances `time.Time` values. -/
structure Date where
  year : Int
  month : Int
  day : Int
deriving DecidableEq, Repr

/-- Days since 1970-01-01 of the first day of a month (year arbitrary, month
normalised to 1..12).  Standard civil-from-days algorithm, matching the day
arithmetic performed by Go `time.Date` normalisation. -/
def daysFromCivilFirst (y m : Int) : Int :=
  let y2 : Int := if m ≤ 2 then y - 1 else y
  let era : Int := (if 0 ≤ y2 then y2 else y2 - 399).ediv 400
  let yoe : Int := y2 - era * 400
  let mp : Int := (m + 9).emod 12
  let doy : Int := (153 * mp + 2).ediv 5
  let doe : Int := yoe * 365 + yoe.ediv 4 - yoe.ediv 100 + doy
  era * 146097 + doe - 719468

/-- Days since 1970-01-01 of a (normalised) civil date. -/
def Date.toDays (d : Date) : Int :=
  daysFromCivilFirst d.year d.month + (d.day - 1)

/-- Inverse of `Date.toDays`: the normalised civil date of a day number. -/
def dateOfDays (z0 : Int) : Date :=
  let z : Int := z0 + 719468
  let era : Int := z.ediv 146097
  let doe : Int := z - era * 146097
  let yoe : Int := (doe - doe.ediv 1460 + doe.ediv 36524 - doe.ediv 146096).ediv 365
  let y : Int := yoe + era * 400
  let doy : Int := doe - (365 * yoe + yoe.ediv 4 - yoe.ediv 100)
  let mp : Int := (5 * doy + 2).ediv 153
  let d : Int := doy - (153 * mp + 2).ediv 5 + 1
  let m : Int := mp + (if mp < 10 then 3 else -9)
  ⟨if m ≤ 2 then y + 1 else y, m, d⟩

/-- Go `t.AddDate(years, months, days)`: add the components and renormalise,
with months folded into years first and day overflow rolled over, exactly as
`time.Date` does. -/
def goAddDate (dt : Date) (dy dm dd : Int) : Date :=
  let ty : Int := dt.year + dy
  let tm : Int := dt.month + dm
  let y2 : Int := ty + (tm - 1).ediv 12
  let m2 : Int := (tm - 1).emod 12 + 1
  dateOfDays (daysFromCivilFirst y2 m2 + (dt.day - 1) + dd)

/-- Chronological strict order on dates (Go `t.After(u)` is `u.dateLt t`). -/
def dateLt (a b : Date) : Bool := a.toDays < b.toDays

/-- Chronological non-strict order on dates. -/
def dateLe (a b : Date) : Bool := a.toDays ≤ b.toDays

/-! ### Error taxonomy

One flat error type standing for the Go `error` values produced by the core.
`storage` stands for an injected storage/IO failure. -/

inductive Err where
  | notFound
  | duplicateKey
  | storage
  | inactiveWallet
  | insufficientBalance
  | sameWalletTransfer
  | walletNameRequired
  | walletNameTooLong
  | walletInvalidType
  | walletInvalidCurrency
  | walletNegativeBalance
  | txNoWallet
  | txInvalidType
  | txInvalidAmount
  | transferNoFromWallet
  | transferNoToWallet
  | transferInvalidAmount
  | transferNegativeFee
  | contributionNoGoal
  | contributionInvalid
deriving DecidableEq, Repr

/-! ### Entities (internal/models) -/

/-- Wallet entity (`internal/models/wallet.go`).  `type` is the Go string
constant (`cash`, `bank`, `ewallet`); free-text fields are `GoStr`. -/
structure Wallet where
  id : Nat
  name : GoStr
  type : String
  balance : Money
  currency : GoStr
  isActive : Bool
deriving DecidableEq, Repr

/-- Go `WalletType.IsValid`. -/
def walletTypeIsValid (t : String) : Bool :=
  t == "cash" || t == "bank" || t == "ewallet"

/-- Go `Wallet.Validate`: trims the name, checks name length (bytes), wallet
type, currency length after trim and upper-casing (bytes), and non-negative
balance.  Returns the normalised wallet, mirroring the in-place mutation of
`w.Name` and `w.Currency`. -/
def Wallet.validate (w : Wallet) : Except Err Wallet :=
  let name := goTrimSpace w.name
  if name = [] then .error .walletNameRequired
  else if 100 < goLen name then .error .walletNameTooLong
  else if ¬ walletTypeIsValid w.type then .error .walletInvalidType
  else
    let currency := goToUpper (goTrimSpace w.currency)
    if goLen currency ≠ 3 then .error .walletInvalidCurrency
    else if w.balance < 0 then .error .walletNegativeBalance
    else .ok { w with name := name, currency := currency }

/-- Transaction entity (`internal/models/transaction.go`). -/
structure Transaction where
  id : Nat
  walletID : Nat
  categoryID : Option Nat
  type : String
  amount : Money
  description : GoStr
  tags : List GoStr
  transactionDate : Date
deriving DecidableEq, Repr

/-- Go `TransactionType.IsValid`. -/
def txTypeIsValid (t : String) : Bool :=
  t == "income" || t == "expense"

/-- Go `Transaction.Validate`: wallet required, valid type, strictly positive
amount; trims the description in place. -/
def Transaction.validate (t : Transaction) : Except Err Transaction :=
  if t.walletID = 0 then .error .txNoWallet
  else if ¬ txTypeIsValid t.type then .error .txInvalidType
  else if t.amount ≤ 0 then .error .txInvalidAmount
  else .ok { t with description := goTrimSpace t.description }

/-- Transfer entity (`internal/models`, transfer file). -/
structure Transfer where
  id : Nat
  fromWalletID : Nat
  toWalletID : Nat
  amount : Money
  fee : Money
  note : GoStr
deriving DecidableEq, Repr

/-- Go `Transfer.Validate`. -/
def Transfer.validate (t : Transfer) : Except Err Transfer :=
  if t.fromWalletID = 0 then .error .transferNoFromWallet
  else if t.toWalletID = 0 then .error .transferNoToWallet
  else if t.fromWalletID = t.toWalletID then .error .sameWalletTransfer
  else if t.amount ≤ 0 then .error .transferInvalidAmount
  else if t.fee < 0 then .error .transferNegativeFee
  else .ok { t with note := goTrimSpace t.note }

/-- Go `Transfer.TotalDeducted`. -/
def Transfer.totalDeducted (t : Transfer) : Money := t.amount + t.fee

/-- Goal entity (`internal/models`, goal file).  `status` is the Go string
constant (`active`, `completed`, `cancelled`). -/
structure Goal where
  id : Nat
  name : GoStr
  targetAmount : Money
  currentAmount : Money
  status : String
deriving DecidableEq, Repr

/-- Go `Goal.IsCompleted`: current amount has reached the target. -/
def Goal.isCompleted (g : Goal) : Bool := g.targetAmount ≤ g.currentAmount

/-- Goal contribution entity. -/
structure GoalContribution where
  id : Nat
  goalID : Nat
  amount : Money
  note : GoStr
deriving DecidableEq, Repr

/-- Go `GoalContribution.Validate`. -/
def GoalContribution.validate (c : GoalContribution) : Except Err GoalContribution :=
  if c.goalID = 0 then .error .contributionNoGoal
  else if c.amount ≤ 0 then .error .contributionInvalid
  else .ok c

/-- Recurring transaction entity (`internal/models`, recurring file).
`frequency` is the Go string constant (`daily`, `weekly`, `monthly`,
`yearly`). -/
structure RecurringTransaction where
  id : Nat
  walletID : Nat
  categoryID : Option Nat
  type : String
  amount : Money
  description : GoStr
  frequency : String
  nextDue : Date
  endDate : Option Date
  isActive : Bool
deriving DecidableEq, Repr

/-- Go `RecurringTransaction.AdvanceNextDue`: advance `nextDue` by one
frequency step via `AddDate`, then deactivate when the new `nextDue` is after
the end date (when one is set). -/
def RecurringTransaction.advanceNextDue (r : RecurringTransaction) : RecurringTransaction :=
  let nd :=
    if r.frequency = "daily" then goAddDate r.nextDue 0 0 1
    else if r.frequency = "weekly" then goAddDate r.nextDue 0 0 7
    else if r.frequency = "monthly" then goAddDate r.nextDue 0 1 0
    else if r.frequency = "yearly" then goAddDate r.nextDue 1 0 0
    else r.nextDue
  let deactivate :=
    match r.endDate with
    | some ed => dateLt ed nd
    | none => false
  { r with nextDue := nd, isActive := if deactivate then false else r.isActive }

/-- Go `RecurringTransaction.ToTransaction`: the generated ledger row is dated
`nextDue`. -/
def RecurringTransaction.toTransaction (r : RecurringTransaction) (newId : Nat) : Transaction :=
  { id := newId, walletID := r.walletID, categoryID := r.categoryID,
    type := r.type, amount := r.amount, description := r.description,
    tags := [], transactionDate := r.nextDue }

/-- Budget entity (`internal/models`, budget file; only the fields the status
aggregator reads). -/
structure Budget where
  id : Nat
  categoryID : Nat
  amount : Money
  startDate : Date
  endDate : Option Date
  isActive : Bool
deriving DecidableEq, Repr

/-! ### The relational store and pgx connection semantics -/

/-- The committed database state: the tables the financial mutation core
touches. -/
structure DB where
  wallets : List Wallet
  transactions : List Transaction
  transfers : List Transfer
  goals : List Goal
  contributions : List GoalContribution
  recurrings : List RecurringTransaction
  budgets : List Budget
deriving DecidableEq, Repr

/-- The SQL write statements issued by the repositories. -/
inductive DBWrite where
  | insertTransaction (t : Transaction)
  | deleteTransaction (id : Nat)
  | updateBalance (id : Nat) (newBalance : Money)
  | insertTransfer (t : Transfer)
  | insertContribution (c : GoalContribution)
  | incrementGoalAmount (id : Nat) (amount : Money)
  | updateGoal (g : Goal)
  | updateRecurring (r : RecurringTransaction)
deriving DecidableEq, Repr

/-- Execute one SQL write against a database state.  INSERT enforces the
primary key (`23505` maps to `ErrDuplicateKey` via `convertError`); UPDATE and
DELETE return `ErrNotFound` when `RowsAffected` is zero, as each repository
method does.  `incrementGoalAmount` is the relative update
`SET current_amount = current_amount + $2` of `goalRepository.AddContribution`;
`updateBalance` is the absolute set of `walletRepository.UpdateBalance`. -/
def applyWrite (db : DB) (w : DBWrite) : Except Err DB :=
  match w with
  | .insertTransaction t =>
      if db.transactions.any (fun x => x.id == t.id) then .error .duplicateKey
      else .ok { db with transactions := db.transactions ++ [t] }
  | .deleteTransaction i =>
      if db.transactions.any (fun x => x.id == i) then
        .ok { db with transactions := db.transactions.filter (fun x => x.id ≠ i) }
      else .error .notFound
  | .updateBalance i b =>
      if db.wallets.any (fun x => x.id == i) then
        .ok { db with wallets :=
          db.wallets.map (fun x => if x.id == i then { x with balance := b } else x) }
      else .error .notFound
  | .insertTransfer t =>
      if db.transfers.any (fun x => x.id == t.id) then .error .duplicateKey
      else .ok { db with transfers := db.transfers ++ [t] }
  | .insertContribution c =>
      if db.contributions.any (fun x => x.id == c.id) then .error .duplicateKey
      else .ok { db with contributions := db.contributions ++ [c] }
  | .incrementGoalAmount i a =>
      if db.goals.any (fun x => x.id == i) then
        .ok { db with goals :=
          db.goals.map (fun x =>
            if x.id == i then { x with currentAmount := x.currentAmount + a } else x) }
      else .error .notFound
  | .updateGoal g =>
      if db.goals.any (fun x => x.id == g.id) then
        .ok { db with goals := db.goals.map (fun x => if x.id == g.id then g else x) }
      else .error .notFound
  | .updateRecurring r =>
      if db.recurrings.any (fun x => x.id == r.id) then
        .ok { db with recurrings := db.recurrings.map (fun x => if x.id == r.id then r else x) }
      else .error .notFound

/-- Apply a list of pending transaction writes in order. -/
def applyWrites (db : DB) : List DBWrite → Except Err DB
  | [] => .ok db
  | w :: ws => match applyWrite db w with
    | .ok db2 => applyWrites db2 ws
    | .error e => .error e

/-- A pgx pooled connection.  `pending = some ops` means a database
transaction is open holding the writes `ops`; `pending = none` means no open
transaction. -/
structure PgConn where
  db : DB
  pending : Option (List DBWrite)

/-- Auto-commit execution (`r.pool.Exec`): the write is applied to the
committed state immediately, bypassing any open transaction. -/
def poolExec (conn : PgConn) (w : DBWrite) : Except Err PgConn :=
  (applyWrite conn.db w).map (fun d => { conn with db := d })

/-- Execution on an open transaction (`tx.Exec`): the write is recorded in the
pending list; constraint violations surface at statement time, as Postgres
reports them, but nothing is committed yet. -/
def txExec (conn : PgConn) (w : DBWrite) : Except Err PgConn :=
  match conn.pending with
  | none => .error .storage
  | some ops =>
      match applyWrites conn.db (ops ++ [w]) with
      | .ok _ => .ok { conn with pending := some (ops ++ [w]) }
      | .error e => .error e

/-- Open a transaction (`pool.Begin`). -/
def pgBegin (conn : PgConn) : PgConn := { conn with pending := some [] }

/-- Roll back the open transaction (`tx.Rollback`): the pending writes are
discarded; the committed state is untouched. -/
def pgRollback (conn : PgConn) : PgConn := { conn with pending := none }

/-- Commit the open transaction (`tx.Commit`): the pending writes are applied
to the committed state. -/
def pgCommit (conn : PgConn) : Except Err PgConn :=
  match conn.pending with
  | none => .error .storage
  | some ops => (applyWrites conn.db ops).map (fun d => ⟨d, none⟩)

/-- Go `GetTx(ctx)`: fetches the transaction handle stored in the request
context by `WithTransaction`.  The source defines this helper, and the comment
on `WithTransaction` instructs repositories to use it, but no repository in
the source ever calls it: they all execute on `r.pool`.  It is embedded here,
unused by the repositories below, to record that fact. -/
def getTxFromCtx (txInContext : Bool) (conn : PgConn) : Option (List DBWrite) :=
  if txInContext then conn.pending else none

/-- Go `TransactionManager.WithTransaction`: begin, run the closure with the
transaction stored in the context, roll back when the closure errors, commit
otherwise, propagating the error.  The closure returns the connection reached
at the point of failure, since auto-commit writes performed inside it survive
an error. -/
def withTransaction (conn : PgConn)
    (fn : PgConn → Except Err Unit × PgConn) : Except Err Unit × PgConn :=
  let conn1 := pgBegin conn
  match fn conn1 with
  | (.error e, c) => (.error e, pgRollback c)
  | (.ok _, c) =>
      match pgCommit c with
      | .error e => (.error e, pgRollback c)
      | .ok c2 => (.ok (), c2)

/-! ### Repositories (internal/repository/postgres)

Every method below executes on the pool (`poolExec`), mirroring the source,
which calls `r.pool.Exec` / `r.pool.QueryRow` unconditionally and never calls
`GetTx`.  Each write takes a fault flag modelling an injected storage
failure of that call. -/

/-- Go `walletRepository.GetByID` (first row matching the id). -/
def getWallet (db : DB) (id : Nat) : Option Wallet :=
  db.wallets.find? (fun w => w.id == id)

/-- Go `transactionRepository.GetByID`. -/
def getTransaction (db : DB) (id : Nat) : Option Transaction :=
  db.transactions.find? (fun t => t.id == id)

/-- Go `goalRepository.GetByID`. -/
def getGoal (db : DB) (id : Nat) : Option Goal :=
  db.goals.find? (fun g => g.id == id)

/-- Go `budgetRepository.GetByID`. -/
def getBudget (db : DB) (id : Nat) : Option Budget :=
  db.budgets.find? (fun b => b.id == id)

/-- Go `transactionRepository.Create` (INSERT, on the pool). -/
def txRepoCreate (fault : Bool) (t : Transaction) (conn : PgConn) : Except Err PgConn :=
  if fault then .error .storage else poolExec conn (.insertTransaction t)

/-- Go `transactionRepository.Delete` (DELETE, on the pool). -/
def txRepoDelete (fault : Bool) (id : Nat) (conn : PgConn) : Except Err PgConn :=
  if fault then .error .storage else poolExec conn (.deleteTransaction id)

/-- Go `walletRepository.UpdateBalance` (absolute UPDATE, on the pool). -/
def walletRepoUpdateBalance (fault : Bool) (id : Nat) (b : Money) (conn : PgConn) :
    Except Err PgConn :=
  if fault then .error .storage else poolExec conn (.updateBalance id b)

/-- Go `transferRepository.Create` (INSERT, on the pool). -/
def transferRepoCreate (fault : Bool) (t : Transfer) (conn : PgConn) : Except Err PgConn :=
  if fault then .error .storage else poolExec conn (.insertTransfer t)

/-- Go `goalRepository.Update` (full-row UPDATE, on the pool). -/
def goalRepoUpdate (fault : Bool) (g : Goal) (conn : PgConn) : Except Err PgConn :=
  if fault then .error .storage else poolExec conn (.updateGoal g)

/-- Go `recurringRepository.Update` (full-row UPDATE, on the pool). -/
def recurringRepoUpdate (fault : Bool) (r : RecurringTransaction) (conn : PgConn) :
    Except Err PgConn :=
  if fault then .error .storage else poolExec conn (.updateRecurring r)

/-- Fault flags for `goalRepository.AddContribution`. -/
structure AddContributionRepoFaults where
  insertFails : Bool
  updateFails : Bool
deriving DecidableEq, Repr

/-- Go `goalRepository.AddContribution`: unlike the other repositories, this
method opens its own `pool.Begin` transaction and issues both writes through
`tx.Exec` (insert the contribution row, then the relative increment of
`goals.current_amount`), committing on success and rolling back on failure. -/
def goalRepoAddContribution (faults : AddContributionRepoFaults)
    (c : GoalContribution) (conn : PgConn) : Except Err PgConn :=
  let conn1 := pgBegin conn
  if faults.insertFails then .error .storage
  else match txExec conn1 (.insertContribution c) with
    | .error e => .error e
    | .ok conn2 =>
        if faults.updateFails then .error .storage
        else match txExec conn2 (.incrementGoalAmount c.goalID c.amount) with
          | .error e => .error e
          | .ok conn3 => pgCommit conn3

/-! ### Transaction service (internal/service, transaction file) -/

/-- Input of `TransactionService.Create`.  `date = none` models the zero
`time.Time`, replaced by the current instant. -/
structure CreateTransactionInput where
  walletID : Nat
  categoryID : Option Nat
  type : String
  amount : Money
  description : GoStr
  tags : List GoStr
  date : Option Date
deriving DecidableEq, Repr

/-- Injected storage faults for the two writes of
`TransactionService.Create`. -/
structure CreateTxFaults where
  createFails : Bool
  updateBalanceFails : Bool
deriving DecidableEq, Repr

/-- No injected faults. -/
def noCreateTxFaults : CreateTxFaults := ⟨false, false⟩

/-- Go `TransactionService.Create`: fetch and check the wallet, check the
balance for an expense, build and validate the transaction (defaulting the
date to now), compute the new balance, then run the insert and the balance
update inside `WithTransaction`. -/
def TransactionService.create (now : Date) (newId : Nat) (faults : CreateTxFaults)
    (input : CreateTransactionInput) (conn : PgConn) : Except Err Transaction × PgConn :=
  match getWallet conn.db input.walletID with
  | none => (.error .notFound, conn)
  | some wallet =>
    if ¬ wallet.isActive then (.error .inactiveWallet, conn)
    else if input.type = "expense" ∧ wallet.balance < input.amount then
      (.error .insufficientBalance, conn)
    else
      let t0 : Transaction :=
        { id := newId, walletID := input.walletID, categoryID := input.categoryID,
          type := input.type, amount := input.amount, description := input.description,
          tags := input.tags, transactionDate := input.date.getD now }
      match t0.validate with
      | .error e => (.error e, conn)
      | .ok t =>
        let newBalance :=
          if input.type = "income" then wallet.balance + input.amount
          else wallet.balance - input.amount
        let r := withTransaction conn (fun c0 =>
          match txRepoCreate faults.createFails t c0 with
          | .error e => (.error e, c0)
          | .ok c1 =>
            match walletRepoUpdateBalance faults.updateBalanceFails wallet.id newBalance c1 with
            | .error e => (.error e, c1)
            | .ok c2 => (.ok (), c2))
        match r with
        | (.error e, c) => (.error e, c)
        | (.ok _, c) => (.ok t, c)

/-- Injected storage faults for the two writes of
`TransactionService.Delete`. -/
structure DeleteTxFaults where
  deleteFails : Bool
  updateBalanceFails : Bool
deriving DecidableEq, Repr

/-- No injected faults. -/
def noDeleteTxFaults : DeleteTxFaults := ⟨false, false⟩

/-- Go `TransactionService.Delete`: fetch the transaction and its wallet,
compute the inverse balance adjustment (income subtracted back, expense added
back), then delete the row and update the balance inside `WithTransaction`. -/
def TransactionService.delete (faults : DeleteTxFaults) (id : Nat) (conn : PgConn) :
    Except Err Unit × PgConn :=
  match getTransaction conn.db id with
  | none => (.error .notFound, conn)
  | some t =>
    match getWallet conn.db t.walletID with
    | none => (.error .notFound, conn)
    | some wallet =>
      let newBalance :=
        if t.type = "income" then wallet.balance - t.amount
        else wallet.balance + t.amount
      withTransaction conn (fun c0 =>
        match txRepoDelete faults.deleteFails id c0 with
        | .error e => (.error e, c0)
        | .ok c1 =>
          match walletRepoUpdateBalance faults.updateBalanceFails wallet.id newBalance c1 with
          | .error e => (.error e, c1)
          | .ok c2 => (.ok (), c2))

/-! ### Transfer service (internal/service/transfer_service.go) -/

/-- Input of `TransferService.Create`. -/
structure CreateTransferInput where
  fromWalletID : Nat
  toWalletID : Nat
  amount : Money
  fee : Money
  note : GoStr
deriving DecidableEq, Repr

/-- Injected storage faults for the three writes of
`TransferService.Create`. -/
structure TransferFaults where
  createFails : Bool
  updateFromFails : Bool
  updateToFails : Bool
deriving DecidableEq, Repr

/-- No injected faults. -/
def noTransferFaults : TransferFaults := ⟨false, false, false⟩

/-- Go `TransferService.Create`: reject same-wallet transfers, fetch and check
both wallets, check the source balance against amount plus fee, build and
validate the transfer, then insert the row and update both balances inside
`WithTransaction`. -/
def TransferService.create (newId : Nat) (faults : TransferFaults)
    (input : CreateTransferInput) (conn : PgConn) : Except Err Transfer × PgConn :=
  if input.fromWalletID = input.toWalletID then (.error .sameWalletTransfer, conn)
  else match getWallet conn.db input.fromWalletID with
  | none => (.error .notFound, conn)
  | some fromWallet =>
    if ¬ fromWallet.isActive then (.error .inactiveWallet, conn)
    else match getWallet conn.db input.toWalletID with
    | none => (.error .notFound, conn)
    | some toWallet =>
      if ¬ toWallet.isActive then (.error .inactiveWallet, conn)
      else
        let totalDeducted := input.amount + input.fee
        if fromWallet.balance < totalDeducted then (.error .insufficientBalance, conn)
        else
          let tr0 : Transfer :=
            { id := newId, fromWalletID := input.fromWalletID,
              toWalletID := input.toWalletID, amount := input.amount,
              fee := input.fee, note := input.note }
          match tr0.validate with
          | .error e => (.error e, conn)
          | .ok tr =>
            let fromNewBalance := fromWallet.balance - totalDeducted
            let toNewBalance := toWallet.balance + input.amount
            let r := withTransaction conn (fun c0 =>
              match transferRepoCreate faults.createFails tr c0 with
              | .error e => (.error e, c0)
              | .ok c1 =>
                match walletRepoUpdateBalance faults.updateFromFails fromWallet.id
                    fromNewBalance c1 with
                | .error e => (.error e, c1)
                | .ok c2 =>
                  match walletRepoUpdateBalance faults.updateToFails toWallet.id
                      toNewBalance c2 with
                  | .error e => (.error e, c2)
                  | .ok c3 => (.ok (), c3))
            match r with
            | (.error e, c) => (.error e, c)
            | (.ok _, c) => (.ok tr, c)

/-! ### Goal service (service goal file) -/

/-- Injected faults for the steps of `GoalService.AddContribution`: the two
repository writes inside the contribution transaction, the best-effort
re-fetch, and the best-effort status update. -/
structure AddContributionFaults where
  repo : AddContributionRepoFaults
  refetchFails : Bool
  statusUpdateFails : Bool
deriving DecidableEq, Repr

/-- No injected faults. -/
def noAddContributionFaults : AddContributionFaults := ⟨⟨false, false⟩, false, false⟩

/-- Go `GoalService.AddContribution`: build and validate the contribution,
store it through `goalRepository.AddContribution` (insert plus relative
increment, one database transaction), then best-effort: re-fetch the goal and,
when it is now completed and still active, mark it completed.  Failures of the
re-fetch or of the status update are swallowed: the method still returns
success. -/
def GoalService.addContribution (newId : Nat) (faults : AddContributionFaults)
    (goalID : Nat) (amount : Money) (note : GoStr) (conn : PgConn) :
    Except Err Unit × PgConn :=
  let contribution : GoalContribution := { id := newId, goalID := goalID, amount := amount, note := note }
  match contribution.validate with
  | .error e => (.error e, conn)
  | .ok c =>
    match goalRepoAddContribution faults.repo c conn with
    | .error e => (.error e, conn)
    | .ok conn1 =>
      if faults.refetchFails then (.ok (), conn1)
      else match getGoal conn1.db goalID with
      | none => (.ok (), conn1)
      | some goal =>
        if goal.isCompleted ∧ goal.status = "active" then
          let goal2 := { goal with status := "completed" }
          match goalRepoUpdate faults.statusUpdateFails goal2 conn1 with
          | .error _ => (.ok (), conn1)
          | .ok conn2 => (.ok (), conn2)
        else (.ok (), conn1)

/-! ### Recurring-due processor (service recurring file) -/

/-- Ordered insertion by due date, for the `ORDER BY next_due ASC` of
`recurringRepository.GetDue`. -/
def insertByNextDue (r : RecurringTransaction) :
    List RecurringTransaction → List RecurringTransaction
  | [] => [r]
  | x :: xs =>
      if r.nextDue.toDays < x.nextDue.toDays then r :: x :: xs
      else x :: insertByNextDue r xs

/-- Go `recurringRepository.GetDue`: the active recurring rows with
`next_due <= CURRENT_DATE`, ordered by due date. -/
def getDue (db : DB) (today : Date) : List RecurringTransaction :=
  (db.recurrings.filter (fun r => r.isActive && dateLe r.nextDue today)).foldr
    insertByNextDue []

/-- Injected faults for processing one due recurring entry: the faults of the
generated `TransactionService.Create` call and of the
`recurringRepository.Update` call. -/
structure RecurringEntryFaults where
  createTx : CreateTxFaults
  updateFails : Bool
deriving DecidableEq, Repr

/-- No injected faults. -/
def noRecurringEntryFaults : RecurringEntryFaults := ⟨⟨false, false⟩, false⟩

/-- The `CreateTransactionInput` built by `RecurringService.ProcessDue` for a
due entry: the generated transaction is dated with the entry field
`NextDue`. -/
def recurringCreateInput (r : RecurringTransaction) : CreateTransactionInput :=
  { walletID := r.walletID, categoryID := r.categoryID, type := r.type,
    amount := r.amount, description := r.description, tags := [],
    date := some r.nextDue }

/-- The loop body of Go `RecurringService.ProcessDue`: for each due entry,
attempt to create the transaction; on failure log and continue with the next
entry; otherwise advance the due date and persist the entry; on failure log
and continue; otherwise count the entry as processed.  `newIds idx` supplies
the generated transaction id of entry number `idx`, `faults idx` its injected
faults. -/
def processLoop (now : Date) (newIds : Nat → Nat) (faults : Nat → RecurringEntryFaults)
    (idx : Nat) (entries : List RecurringTransaction) (conn : PgConn) (processed : Nat) :
    Nat × PgConn :=
  match entries with
  | [] => (processed, conn)
  | r :: rest =>
    let f := faults idx
    match TransactionService.create now (newIds idx) f.createTx (recurringCreateInput r) conn with
    | (.error _, c) => processLoop now newIds faults (idx + 1) rest c processed
    | (.ok _, c1) =>
      let r2 := r.advanceNextDue
      match recurringRepoUpdate f.updateFails r2 c1 with
      | .error _ => processLoop now newIds faults (idx + 1) rest c1 processed
      | .ok c2 => processLoop now newIds faults (idx + 1) rest c2 (processed + 1)

/-- Go `RecurringService.ProcessDue`: fetch the due entries, process each one
independently, and return the number of entries for which both the
transaction creation and the recurring update succeeded.  Per-item failures
are logged and swallowed; the only error return is a failure of the initial
fetch, which is a pure read here. -/
def RecurringService.processDue (today now : Date) (newIds : Nat → Nat)
    (faults : Nat → RecurringEntryFaults) (conn : PgConn) : Except Err Nat × PgConn :=
  let due := getDue conn.db today
  let r := processLoop now newIds faults 0 due conn 0
  (.ok r.1, r.2)

/-! ### Budget status aggregator (service budget file) -/

/-- Go `repository.TransactionFilter`. -/
structure TransactionFilter where
  walletID : Option Nat
  categoryID : Option Nat
  type : Option String
  startDate : Option Date
  endDate : Option Date
deriving DecidableEq, Repr

/-- Go `repository.TransactionSummary`. -/
structure TransactionSummary where
  totalIncome : Money
  totalExpense : Money
  net : Money
  count : Nat
deriving DecidableEq, Repr

/-- The WHERE clause built by Go `transactionRepository.GetSummary`.  The
source adds conditions only for `WalletID`, `StartDate` and `EndDate`; the
`CategoryID` and `Type` fields of the filter are not consulted. -/
def summaryWhere (f : TransactionFilter) (t : Transaction) : Bool :=
  (match f.walletID with | some w => t.walletID == w | none => true) &&
  (match f.startDate with | some d => dateLe d t.transactionDate | none => true) &&
  (match f.endDate with | some d => dateLe t.transactionDate d | none => true)

/-- Go `transactionRepository.GetSummary`: conditional sums of income and
expense amounts over the rows selected by `summaryWhere`, and
`net = income - expense`. -/
def getSummary (db : DB) (f : TransactionFilter) : TransactionSummary :=
  let rows := db.transactions.filter (summaryWhere f)
  let income := (rows.map (fun t => if t.type = "income" then t.amount else 0)).sum
  let expense := (rows.map (fun t => if t.type = "expense" then t.amount else 0)).sum
  { totalIncome := income, totalExpense := expense, net := income - expense,
    count := rows.length }

/-- Go `repository.BudgetStatus`.  `progress` is a float64 in the source,
computed from exact decimals; it is kept rational here. -/
structure BudgetStatus where
  budgetID : Nat
  spent : Money
  remaining : Money
  progress : Money
  isOverBudget : Bool
deriving DecidableEq, Repr

/-- Go `BudgetService.GetStatus`: fetch the budget, build a transaction filter
from its category, period start and optional period end with type `expense`,
take `spent` from the resulting summary, clamp `remaining` at zero, compute
`progress = spent / amount * 100` (zero when the amount is zero), and flag
over-budget when `spent > amount`.  A pure read. -/
def BudgetService.getStatus (db : DB) (id : Nat) : Except Err BudgetStatus :=
  match getBudget db id with
  | none => .error .notFound
  | some budget =>
    let filter : TransactionFilter :=
      { walletID := none, categoryID := some budget.categoryID,
        type := some "expense", startDate := some budget.startDate,
        endDate := budget.endDate }
    let summary := getSummary db filter
    let spent := summary.totalExpense
    let remaining0 := budget.amount - spent
    let remaining := if remaining0 < 0 then 0 else remaining0
    let progress : Money := if budget.amount = 0 then 0 else spent / budget.amount * 100
    .ok { budgetID := budget.id, spent := spent, remaining := remaining,
          progress := progress, isOverBudget := budget.amount < spent }

/-! ### Helper lemmas about the store -/

/-- The wallet table after an absolute balance write on id `i`. -/
def dbSetBalance (db : DB) (i : Nat) (b : Money) : DB :=
  { db with wallets :=
      db.wallets.map (fun x => if x.id == i then { x with balance := b } else x) }

/-- The transaction table after an INSERT. -/
def dbInsertTx (db : DB) (t : Transaction) : DB :=
  { db with transactions := db.transactions ++ [t] }

/-- The transaction table after a DELETE of id `i`. -/
def dbDeleteTx (db : DB) (i : Nat) : DB :=
  { db with transactions := db.transactions.filter (fun x => x.id ≠ i) }

/-- The transfer table after an INSERT. -/
def dbInsertTransfer (db : DB) (t : Transfer) : DB :=
  { db with transfers := db.transfers ++ [t] }

/-- The contribution table after an INSERT. -/
def dbInsertContribution (db : DB) (c : GoalContribution) : DB :=
  { db with contributions := db.contributions ++ [c] }

/-- The goal table after the relative increment of `current_amount`. -/
def dbIncGoal (db : DB) (i : Nat) (a : Money) : DB :=
  { db with goals := db.goals.map (fun x =>
      if x.id == i then { x with currentAmount := x.currentAmount + a } else x) }

/-- The goal table after a full-row UPDATE. -/
def dbUpdateGoal (db : DB) (g : Goal) : DB :=
  { db with goals := db.goals.map (fun x => if x.id == g.id then g else x) }

/-- A goal after the relative increment of its current amount. -/
def goalInc (g : Goal) (a : Money) : Goal :=
  { g with currentAmount := g.currentAmount + a }

/-- A goal marked completed (the transition of the best-effort post-step). -/
def goalComplete (g : Goal) : Goal := { g with status := "completed" }

/-- The recurring table after a full-row UPDATE. -/
def dbUpdateRecurring (db : DB) (r : RecurringTransaction) : DB :=
  { db with recurrings := db.recurrings.map (fun x => if x.id == r.id then r else x) }

/-! ### Harness definitions used by the statements -/

/-- One step of the transaction-ledger workload of spec section 8: a
successful `TransactionService.Create` or `TransactionService.Delete`. -/
inductive LedgerOp where
  | createOp (newId : Nat) (input : CreateTransactionInput)
  | deleteOp (id : Nat)
deriving DecidableEq, Repr

/-- Run a sequence of ledger operations with no injected faults, stopping at
the first failure. -/
def runOps (now : Date) : PgConn → List LedgerOp → Except Err PgConn
  | conn, [] => .ok conn
  | conn, .createOp nid inp :: rest =>
    match TransactionService.create now nid noCreateTxFaults inp conn with
    | (.ok _, c) => runOps now c rest
    | (.error e, _) => .error e
  | conn, .deleteOp i :: rest =>
    match TransactionService.delete noDeleteTxFaults i conn with
    | (.ok _, c) => runOps now c rest
    | (.error e, _) => .error e

/-- Sum of the amounts of a list of transactions. -/
def sumAmounts (l : List Transaction) : Money := (l.map (fun t => t.amount)).sum

/-- Total income amount currently recorded for a wallet. -/
def incomeSum (db : DB) (wid : Nat) : Money :=
  sumAmounts (db.transactions.filter (fun t => t.walletID == wid && t.type == "income"))

/-- Total expense amount currently recorded for a wallet. -/
def expenseSum (db : DB) (wid : Nat) : Money :=
  sumAmounts (db.transactions.filter (fun t => t.walletID == wid && t.type == "expense"))

/-- Database well-formedness maintained by the store: transaction primary
keys are distinct (the `transactions` PK) and every stored type is a valid
enum value (the `transaction_type` column type). -/
def WFdb (db : DB) : Prop :=
  (db.transactions.map (fun t => t.id)).Nodup ∧
  ∀ t ∈ db.transactions, txTypeIsValid t.type = true

/-- The conserved per-wallet quantity of the ledger: stored balance minus
recorded income plus recorded expense. -/
def ledgerMeasure (db : DB) (wid : Nat) : Option Money :=
  (getWallet db wid).map (fun w => w.balance - incomeSum db wid + expenseSum db wid)

/-- The empty database. -/
def emptyDB : DB := ⟨[], [], [], [], [], [], []⟩

/-- A plain active cash wallet (name `A`, currency `IDR`). -/
def mkWallet (i : Nat) (b : Money) : Wallet := ⟨i, [65], "cash", b, [73, 68, 82], true⟩

/-- A pooled connection with no open transaction. -/
def mkConn (db : DB) : PgConn := ⟨db, none⟩

/-- A fixed business date used by the concrete scenarios. -/
def d0 : Date := ⟨2026, 1, 1⟩

/-- A minimal transaction-creation input. -/
def mkTxInput (wid : Nat) (ty : String) (amt : Money) : CreateTransactionInput :=
  ⟨wid, none, ty, amt, [], [], some d0⟩

/-- The wallet-acceptance condition as the spec words it (data model, section
3): trimmed name non-empty and at most 100 characters, type in the
enumeration, currency a 3-letter uppercase code after trimming and
upper-casing, and non-negative balance.  Stated for comparison with
`Wallet.validate`. -/
def specWalletAccepted (w : Wallet) : Bool :=
  let name := goTrimSpace w.name
  let cur := goToUpper (goTrimSpace w.currency)
  decide (name ≠ []) && decide (name.length ≤ 100) && walletTypeIsValid w.type &&
  decide (cur.length = 3) && cur.all (fun c => 65 ≤ c && c ≤ 90) && decide (0 ≤ w.balance)

/-- The category-and-period expense total the spec prescribes for budget
`spent` (section 4.5): expense transactions of the budget category inside
the period.  Stated for comparison with `BudgetService.getStatus`. -/
def specCategorySpent (db : DB) (b : Budget) : Money :=
  sumAmounts (db.transactions.filter (fun t =>
    t.categoryID == some b.categoryID && t.type == "expense" &&
    dateLe b.startDate t.transactionDate &&
    (match b.endDate with | some e => dateLe t.transactionDate e | none => true)))

/-- Scenario budget for the status aggregator: category 1, limit 2,000,000,
period open-ended from `d0`. -/
def c9Budget : Budget := ⟨5, 1, 2000000, d0, none, true⟩

/-- Scenario database for the status aggregator: one expense of 100 in the
budget category and one expense of 50 in another category, both inside the
period. -/
def c9DB : DB :=
  ⟨[], [⟨31, 1, some 1, "expense", 100, [], [], ⟨2026, 1, 5⟩⟩,
        ⟨32, 1, some 2, "expense", 50, [], [], ⟨2026, 1, 6⟩⟩],
   [], [], [], [], [c9Budget]⟩

/-- A wallet whose currency has three non-letter characters. -/
def c10BadCurrency : Wallet := ⟨1, [65], "cash", 0, [49, 50, 35], true⟩

/-- A wallet whose name has 51 two-byte characters (102 UTF-8 bytes). -/
def c10LongName : Wallet := ⟨1, List.replicate 51 233, "cash", 0, [73, 68, 82], true⟩

/-- Scenario: ledger states around deleting a large income transaction. -/
def c6Tx1 : Transaction := ⟨10, 1, none, "income", 800000, [], [], d0⟩

/-- The expense row of the same scenario. -/
def c6Tx2 : Transaction := ⟨11, 1, none, "expense", 500000, [], [], d0⟩

/-- Start state: one wallet of balance 0. -/
def c6Conn0 : PgConn := mkConn ⟨[mkWallet 1 0], [], [], [], [], [], []⟩

/-- After the 800000 income. -/
def c6Conn1 : PgConn := ⟨⟨[mkWallet 1 800000], [c6Tx1], [], [], [], [], []⟩, none⟩

/-- After the 500000 expense. -/
def c6Conn2 : PgConn := ⟨⟨[mkWallet 1 300000], [c6Tx1, c6Tx2], [], [], [], [], []⟩, none⟩

/-- After deleting the income row: the balance is negative at rest. -/
def c6Conn3 : PgConn := ⟨⟨[mkWallet 1 (-500000)], [c6Tx2], [], [], [], [], []⟩, none⟩

/-- Conservation scenario: the income row (id 10, amount 100). -/
def c4Tx1 : Transaction := ⟨10, 1, none, "income", 100, [], [], d0⟩

/-- Conservation scenario: the expense row (id 11, amount 30). -/
def c4Tx2 : Transaction := ⟨11, 1, none, "expense", 30, [], [], d0⟩

/-- Conservation scenario start state: one wallet of balance 50, no rows. -/
def c4Conn0 : PgConn := mkConn ⟨[mkWallet 1 50], [], [], [], [], [], []⟩

/-- After the 100 income. -/
def c4Conn1 : PgConn := ⟨⟨[mkWallet 1 150], [c4Tx1], [], [], [], [], []⟩, none⟩

/-- After the 30 expense. -/
def c4Conn2 : PgConn := ⟨⟨[mkWallet 1 120], [c4Tx1, c4Tx2], [], [], [], [], []⟩, none⟩

/-- After deleting the income row: only the expense remains. -/
def c4Conn3 : PgConn := ⟨⟨[mkWallet 1 20], [c4Tx2], [], [], [], [], []⟩, none⟩

/-- Conservation scenario operation list: income 100, expense 30, delete the
income. -/
def c4Ops : List LedgerOp :=
  [.createOp 10 (mkTxInput 1 "income" 100),
   .createOp 11 (mkTxInput 1 "expense" 30),
   .deleteOp 10]

/-- Scenario B start state: wallet 1 holds 500000, wallet 2 holds 0. -/
def c2Conn0 : PgConn := mkConn ⟨[mkWallet 1 500000, mkWallet 2 0], [], [], [], [], [], []⟩

/-- Scenario B transfer row: 100000 from wallet 1 to wallet 2 with fee 2000. -/
def c2Tr : Transfer := ⟨20, 1, 2, 100000, 2000, []⟩

/-- Scenario B end state: 398000 and 100000. -/
def c2Conn2 : PgConn :=
  ⟨⟨[mkWallet 1 398000, mkWallet 2 100000], [], [c2Tr], [], [], [], []⟩, none⟩

/-- Scenario C goal: target 1000000, current 800000, active. -/
def c5Goal : Goal := ⟨7, [65], 1000000, 800000, "active"⟩

/-- Scenario C start state. -/
def c5Conn0 : PgConn := mkConn ⟨[], [], [], [c5Goal], [], [], []⟩

/-- Scenario D recurring entry: monthly, next due 2026-01-25, end date
2026-02-28, active. -/
def c7Rec0 : RecurringTransaction :=
  ⟨3, 1, none, "expense", 100, [], "monthly", ⟨2026, 1, 25⟩, some ⟨2026, 2, 28⟩, true⟩

/-- Scenario D start state. -/
def c7Conn0 : PgConn := mkConn ⟨[mkWallet 1 1000], [], [], [], [], [c7Rec0], []⟩

/-- The transaction the first ProcessDue run generates, dated 2026-01-25. -/
def c7Tx1 : Transaction := ⟨100, 1, none, "expense", 100, [], [], ⟨2026, 1, 25⟩⟩

/-- The entry after the first run: next due 2026-02-25, still active. -/
def c7Rec1 : RecurringTransaction :=
  ⟨3, 1, none, "expense", 100, [], "monthly", ⟨2026, 2, 25⟩, some ⟨2026, 2, 28⟩, true⟩

/-- State after the first run. -/
def c7Conn1 : PgConn := ⟨⟨[mkWallet 1 900], [c7Tx1], [], [], [], [c7Rec1], []⟩, none⟩

/-- The transaction the second run generates, dated 2026-02-25. -/
def c7Tx2 : Transaction := ⟨200, 1, none, "expense", 100, [], [], ⟨2026, 2, 25⟩⟩

/-- The entry after the second run: next due 2026-03-25, deactivated. -/
def c7Rec2 : RecurringTransaction :=
  ⟨3, 1, none, "expense", 100, [], "monthly", ⟨2026, 3, 25⟩, some ⟨2026, 2, 28⟩, false⟩

/-- State after the second run. -/
def c7Conn2 : PgConn := ⟨⟨[mkWallet 1 800], [c7Tx1, c7Tx2], [], [], [], [c7Rec2], []⟩, none⟩

/-- A recurring entry referencing a wallet that does not exist (used to
exercise per-item failure tolerance). -/
def c8BadRec : RecurringTransaction :=
  ⟨4, 9, none, "expense", 100, [], "daily", ⟨2026, 1, 1⟩, none, true⟩

/-- The transaction generated for the second entry of the failure-tolerance
scenario (entry index 1, so id 101). -/
def c8Tx : Transaction := ⟨101, 1, none, "expense", 100, [], [], ⟨2026, 1, 25⟩⟩

/-- End state of the failure-tolerance scenario: only the second entry was
processed. -/
def c8Conn1 : PgConn := ⟨⟨[mkWallet 1 900], [c8Tx], [], [], [], [c7Rec1], []⟩, none⟩

theorem find?_map_of_pres {α : Type} (f : α → α) (p : α → Bool) (l : List α)
    (hp : ∀ x, p (f x) = p x) : (l.map f).find? p = (l.find? p).map f := by
  induction l with
  | nil => rfl
  | cons x xs ih =>
    by_cases hx : p x = true
    · simp [List.find?_cons, hp, hx]
    · simp only [Bool.not_eq_true] at hx
      simp [List.find?_cons, hp, hx, ih]

theorem walletUpdate_id (x : Wallet) (i : Nat) (b : Money) :
    (if x.id == i then { x with balance := b } else x).id = x.id := by
  split <;> rfl

/-- Success shape of the balance UPDATE: the new committed state. -/
theorem applyWrite_updateBalance_ok {db db2 : DB} {i : Nat} {b : Money}
    (h : applyWrite db (.updateBalance i b) = .ok db2) :
    db2 = dbSetBalance db i b := by
  simp only [applyWrite] at h
  split at h
  · exact ((Except.ok.injEq _ _).mp h.symm)
  · cases h

/-- Success shape of the transaction INSERT. -/
theorem applyWrite_insertTransaction_ok {db db2 : DB} {t : Transaction}
    (h : applyWrite db (.insertTransaction t) = .ok db2) :
    db.transactions.any (fun x => x.id == t.id) = false ∧
    db2 = dbInsertTx db t := by
  simp only [applyWrite] at h
  split at h
  · cases h
  · next hdup => exact ⟨by simpa using hdup, (Except.ok.injEq _ _).mp h.symm⟩

/-- Success shape of the transaction DELETE. -/
theorem applyWrite_deleteTransaction_ok {db db2 : DB} {i : Nat}
    (h : applyWrite db (.deleteTransaction i) = .ok db2) :
    db.transactions.any (fun x => x.id == i) = true ∧
    db2 = dbDeleteTx db i := by
  simp only [applyWrite] at h
  split at h
  · next hmem => exact ⟨hmem, (Except.ok.injEq _ _).mp h.symm⟩
  · cases h

/-- Success shape of the transfer INSERT. -/
theorem applyWrite_insertTransfer_ok {db db2 : DB} {t : Transfer}
    (h : applyWrite db (.insertTransfer t) = .ok db2) :
    db2 = dbInsertTransfer db t := by
  simp only [applyWrite] at h
  split at h
  · cases h
  · exact (Except.ok.injEq _ _).mp h.symm

/-- Reading a wallet after an absolute balance write: the targeted id now
carries the written balance, every other id is untouched. -/
theorem getWallet_after_updateBalance (db : DB) (i : Nat) (b : Money) :
    (getWallet (dbSetBalance db i b) i
       = (getWallet db i).map (fun w => { w with balance := b })) ∧
    (∀ j, j ≠ i → getWallet (dbSetBalance db i b) j = getWallet db j) := by
  unfold getWallet dbSetBalance
  constructor
  · rw [find?_map_of_pres _ _ _ (fun x => by rw [walletUpdate_id])]
    cases hf : db.wallets.find? (fun w => w.id == i) with
    | none => rfl
    | some w =>
      have hw := List.find?_some hf
      simp [hw]
      exact fun h => absurd (by simpa using hw) h
  · intro j hj
    rw [find?_map_of_pres _ _ _ (fun x => by rw [walletUpdate_id])]
    cases hf : db.wallets.find? (fun w => w.id == j) with
    | none => rfl
    | some w =>
      have hw : w.id = j := by simpa using List.find?_some hf
      simp
      exact fun h => absurd (hw.symm.trans h) hj

/-- Success inversion for the insert-then-update closure that
`TransactionService.Create` and `TransactionService.Delete` run inside
`WithTransaction`: both pool writes succeeded in order. -/
theorem createClosure_ok {f1 f2 : Bool} {w1 w2 : DBWrite} {conn c : PgConn}
    (h : withTransaction conn (fun c0 =>
          match (if f1 then .error .storage else poolExec c0 w1 : Except Err PgConn) with
          | .error e => (.error e, c0)
          | .ok c1 =>
            match (if f2 then .error .storage else poolExec c1 w2 : Except Err PgConn) with
            | .error e => (.error e, c1)
            | .ok c2 => (.ok (), c2)) = (.ok (), c)) :
    ∃ db1, applyWrite conn.db w1 = .ok db1 ∧ applyWrite db1 w2 = .ok c.db := by
  by_cases hf1 : f1
  · simp [withTransaction, pgBegin, pgRollback, hf1] at h
  · cases ha1 : applyWrite conn.db w1 with
    | error e =>
      simp [withTransaction, pgBegin, pgRollback, poolExec, Except.map, hf1, ha1] at h
    | ok db1 =>
      by_cases hf2 : f2
      · simp [withTransaction, pgBegin, pgRollback, poolExec, Except.map, hf1, hf2, ha1] at h
      · cases ha2 : applyWrite db1 w2 with
        | error e =>
          simp [withTransaction, pgBegin, pgRollback, poolExec, Except.map,
            hf1, hf2, ha1, ha2] at h
        | ok db2 =>
          refine ⟨db1, rfl, ?_⟩
          simp [withTransaction, pgBegin, pgRollback, pgCommit, poolExec, Except.map,
            applyWrites, hf1, hf2, ha1, ha2] at h
          rw [← h]
          exact ha2

/-- Inversion of `Transaction.Validate`: what acceptance guarantees, and the
normalisation it performs. -/
theorem validate_tx_ok {t t2 : Transaction} (h : t.validate = .ok t2) :
    t.walletID ≠ 0 ∧ txTypeIsValid t.type = true ∧ 0 < t.amount ∧
    t2 = { t with description := goTrimSpace t.description } := by
  unfold Transaction.validate at h
  split at h
  · cases h
  · next hw =>
    split at h
    · cases h
    · next hty =>
      split at h
      · cases h
      · next hamt =>
        refine ⟨hw, ?_, ?_, (Except.ok.injEq _ _).mp h.symm⟩
        · simpa using hty
        · exact lt_of_not_le hamt

/-- Success inversion for `TransactionService.Create`: the preconditions that
must have held, the returned transaction, and the exact committed state
afterwards (row appended, then wallet balance set absolutely). -/
theorem create_ok_state {now : Date} {newId : Nat} {faults : CreateTxFaults}
    {input : CreateTransactionInput} {conn : PgConn} {t : Transaction} {conn2 : PgConn}
    (h : TransactionService.create now newId faults input conn = (.ok t, conn2)) :
    ∃ w, getWallet conn.db input.walletID = some w ∧ w.isActive = true ∧
      ¬ (input.type = "expense" ∧ w.balance < input.amount) ∧
      input.walletID ≠ 0 ∧ txTypeIsValid input.type = true ∧ 0 < input.amount ∧
      t = { id := newId, walletID := input.walletID, categoryID := input.categoryID,
            type := input.type, amount := input.amount,
            description := goTrimSpace input.description, tags := input.tags,
            transactionDate := input.date.getD now } ∧
      conn.db.transactions.any (fun x => x.id == newId) = false ∧
      conn2.db = dbSetBalance (dbInsertTx conn.db t) w.id
        (if input.type = "income" then w.balance + input.amount
         else w.balance - input.amount) := by
  cases hwf : getWallet conn.db input.walletID with
  | none => simp [TransactionService.create, hwf] at h
  | some w =>
    simp only [TransactionService.create, hwf] at h
    refine ⟨w, rfl, ?_⟩
    by_cases hact : w.isActive
    case neg => simp [hact] at h
    rw [if_neg (not_not_intro hact)] at h
    by_cases hins : input.type = "expense" ∧ w.balance < input.amount
    case pos => simp [hins] at h
    rw [if_neg hins] at h
    cases hv : Transaction.validate
        { id := newId, walletID := input.walletID, categoryID := input.categoryID,
          type := input.type, amount := input.amount, description := input.description,
          tags := input.tags, transactionDate := input.date.getD now } with
    | error e => rw [hv] at h; simp at h
    | ok t1 =>
      rw [hv] at h
      obtain ⟨hwid, hty, hamt, ht1⟩ := validate_tx_ok hv
      simp only [txRepoCreate, walletRepoUpdateBalance] at h
      cases hr : withTransaction conn (fun c0 =>
          match (if faults.createFails then .error .storage
                 else poolExec c0 (.insertTransaction t1) : Except Err PgConn) with
          | .error e => (.error e, c0)
          | .ok c1 =>
            match (if faults.updateBalanceFails then .error .storage
                   else poolExec c1 (.updateBalance w.id
                     (if input.type = "income" then w.balance + input.amount
                      else w.balance - input.amount)) : Except Err PgConn) with
            | .error e => (.error e, c1)
            | .ok c2 => (.ok (), c2)) with
    | mk res c =>
      rw [hr] at h
      cases res with
      | error e => simp at h
      | ok u =>
        simp only [Prod.mk.injEq, Except.ok.injEq] at h
        obtain ⟨rfl, rfl⟩ := h
        obtain ⟨db1, hi, hu⟩ := createClosure_ok hr
        obtain ⟨hdup, hdb1⟩ := applyWrite_insertTransaction_ok hi
        subst hdb1
        have hc := applyWrite_updateBalance_ok hu
        refine ⟨hact, hins, by simpa using hwid, hty, hamt, ht1, ?_, ?_⟩
        · simpa [ht1] using hdup
        · rw [hc, ht1]

/-- Success inversion for `TransactionService.Delete`: the transaction and its
wallet existed, and afterwards the row is gone and the wallet balance was set
to the inverse adjustment (income subtracted back, expense added back). -/
theorem delete_ok_state {faults : DeleteTxFaults} {id : Nat} {conn conn2 : PgConn}
    (h : TransactionService.delete faults id conn = (.ok (), conn2)) :
    ∃ t w, getTransaction conn.db id = some t ∧ getWallet conn.db t.walletID = some w ∧
      conn.db.transactions.any (fun x => x.id == id) = true ∧
      conn2.db = dbSetBalance (dbDeleteTx conn.db id) w.id
        (if t.type = "income" then w.balance - t.amount else w.balance + t.amount) := by
  cases htf : getTransaction conn.db id with
  | none => simp [TransactionService.delete, htf] at h
  | some t =>
    cases hwf : getWallet conn.db t.walletID with
    | none => simp [TransactionService.delete, htf, hwf] at h
    | some w =>
      simp only [TransactionService.delete, htf, hwf, txRepoDelete,
        walletRepoUpdateBalance] at h
      obtain ⟨db1, hd, hu⟩ := createClosure_ok h
      obtain ⟨hmem, hdb1⟩ := applyWrite_deleteTransaction_ok hd
      subst hdb1
      refine ⟨t, w, rfl, ?_, hmem, applyWrite_updateBalance_ok hu⟩
      exact hwf

/-- Success inversion for the three-write closure of `TransferService.Create`:
all three pool writes succeeded in order. -/
theorem transferClosure_ok {f1 f2 f3 : Bool} {w1 w2 w3 : DBWrite} {conn c : PgConn}
    (h : withTransaction conn (fun c0 =>
          match (if f1 then .error .storage else poolExec c0 w1 : Except Err PgConn) with
          | .error e => (.error e, c0)
          | .ok c1 =>
            match (if f2 then .error .storage else poolExec c1 w2 : Except Err PgConn) with
            | .error e => (.error e, c1)
            | .ok c2 =>
              match (if f3 then .error .storage else poolExec c2 w3 : Except Err PgConn) with
              | .error e => (.error e, c2)
              | .ok c3 => (.ok (), c3)) = (.ok (), c)) :
    ∃ db1 db2, applyWrite conn.db w1 = .ok db1 ∧ applyWrite db1 w2 = .ok db2 ∧
      applyWrite db2 w3 = .ok c.db := by
  by_cases hf1 : f1
  · simp [withTransaction, pgBegin, pgRollback, hf1] at h
  · cases ha1 : applyWrite conn.db w1 with
    | error e =>
      simp [withTransaction, pgBegin, pgRollback, poolExec, Except.map, hf1, ha1] at h
    | ok db1 =>
      by_cases hf2 : f2
      · simp [withTransaction, pgBegin, pgRollback, poolExec, Except.map, hf1, hf2, ha1] at h
      · cases ha2 : applyWrite db1 w2 with
        | error e =>
          simp [withTransaction, pgBegin, pgRollback, poolExec, Except.map,
            hf1, hf2, ha1, ha2] at h
        | ok db2 =>
          by_cases hf3 : f3
          · simp [withTransaction, pgBegin, pgRollback, poolExec, Except.map,
              hf1, hf2, hf3, ha1, ha2] at h
          · cases ha3 : applyWrite db2 w3 with
            | error e =>
              simp [withTransaction, pgBegin, pgRollback, poolExec, Except.map,
                hf1, hf2, hf3, ha1, ha2, ha3] at h
            | ok db3 =>
              refine ⟨db1, db2, rfl, ha2, ?_⟩
              simp [withTransaction, pgBegin, pgRollback, pgCommit, poolExec, Except.map,
                applyWrites, hf1, hf2, hf3, ha1, ha2, ha3] at h
              rw [← h]
              exact ha3

/-- Inversion of `Transfer.Validate`. -/
theorem validate_transfer_ok {t t2 : Transfer} (h : t.validate = .ok t2) :
    t.fromWalletID ≠ 0 ∧ t.toWalletID ≠ 0 ∧ t.fromWalletID ≠ t.toWalletID ∧
    0 < t.amount ∧ 0 ≤ t.fee ∧ t2 = { t with note := goTrimSpace t.note } := by
  unfold Transfer.validate at h
  split at h
  · cases h
  · next h1 =>
    split at h
    · cases h
    · next h2 =>
      split at h
      · cases h
      · next h3 =>
        split at h
        · cases h
        · next h4 =>
          split at h
          · cases h
          · next h5 =>
            exact ⟨h1, h2, h3, lt_of_not_le h4, le_of_not_lt h5,
              (Except.ok.injEq _ _).mp h.symm⟩

/-- Success inversion for `TransferService.Create`: preconditions, returned
transfer, and the exact committed state (transfer row appended, source balance
set to `balance - (amount + fee)`, destination balance set to
`balance + amount`). -/
theorem transfer_ok_state {newId : Nat} {faults : TransferFaults}
    {input : CreateTransferInput} {conn : PgConn} {tr : Transfer} {conn2 : PgConn}
    (h : TransferService.create newId faults input conn = (.ok tr, conn2)) :
    ∃ fromW toW, input.fromWalletID ≠ input.toWalletID ∧
      getWallet conn.db input.fromWalletID = some fromW ∧ fromW.isActive = true ∧
      getWallet conn.db input.toWalletID = some toW ∧ toW.isActive = true ∧
      0 < input.amount ∧ 0 ≤ input.fee ∧
      input.amount + input.fee ≤ fromW.balance ∧
      tr = { id := newId, fromWalletID := input.fromWalletID,
             toWalletID := input.toWalletID, amount := input.amount,
             fee := input.fee, note := goTrimSpace input.note } ∧
      conn2.db = dbSetBalance
        (dbSetBalance (dbInsertTransfer conn.db tr) fromW.id
          (fromW.balance - (input.amount + input.fee)))
        toW.id (toW.balance + input.amount) := by
  by_cases hsame : input.fromWalletID = input.toWalletID
  · simp [TransferService.create, hsame] at h
  cases hff : getWallet conn.db input.fromWalletID with
  | none => simp [TransferService.create, hsame, hff] at h
  | some fromW =>
    by_cases hfact : fromW.isActive
    case neg => simp [TransferService.create, hsame, hff, hfact] at h
    cases htf : getWallet conn.db input.toWalletID with
    | none => simp [TransferService.create, hsame, hff, hfact, htf] at h
    | some toW =>
      by_cases htact : toW.isActive
      case neg => simp [TransferService.create, hsame, hff, hfact, htf, htact] at h
      simp only [TransferService.create, hsame, hff, htf, if_neg hsame,
        if_neg (not_not_intro hfact), if_neg (not_not_intro htact)] at h
      by_cases hbal : fromW.balance < input.amount + input.fee
      · rw [if_pos hbal] at h; simp at h
      rw [if_neg hbal] at h
      cases hv : Transfer.validate
          { id := newId, fromWalletID := input.fromWalletID,
            toWalletID := input.toWalletID, amount := input.amount,
            fee := input.fee, note := input.note } with
      | error e => rw [hv] at h; simp at h
      | ok tr1 =>
        rw [hv] at h
        obtain ⟨hn1, hn2, hne, hamt, hfee, htr1⟩ := validate_transfer_ok hv
        simp only [transferRepoCreate, walletRepoUpdateBalance] at h
        cases hr : withTransaction conn (fun c0 =>
            match (if faults.createFails then .error .storage
                   else poolExec c0 (.insertTransfer tr1) : Except Err PgConn) with
            | .error e => (.error e, c0)
            | .ok c1 =>
              match (if faults.updateFromFails then .error .storage
                     else poolExec c1 (.updateBalance fromW.id
                       (fromW.balance - (input.amount + input.fee))) : Except Err PgConn) with
              | .error e => (.error e, c1)
              | .ok c2 =>
                match (if faults.updateToFails then .error .storage
                       else poolExec c2 (.updateBalance toW.id
                         (toW.balance + input.amount)) : Except Err PgConn) with
                | .error e => (.error e, c2)
                | .ok c3 => (.ok (), c3)) with
      | mk res c =>
        rw [hr] at h
        cases res with
        | error e => simp at h
        | ok u =>
          simp only [Prod.mk.injEq, Except.ok.injEq] at h
          obtain ⟨rfl, rfl⟩ := h
          obtain ⟨db1, db2, hi, hu1, hu2⟩ := transferClosure_ok hr
          have hdb1 := applyWrite_insertTransfer_ok hi
          subst hdb1
          have hdb2 := applyWrite_updateBalance_ok hu1
          subst hdb2
          have hc := applyWrite_updateBalance_ok hu2
          exact ⟨fromW, toW, hsame, rfl, hfact, rfl, htact, hamt, hfee,
            le_of_not_lt hbal, htr1, by rw [hc, htr1]⟩

/-- Success shape of the contribution INSERT. -/
theorem applyWrite_insertContribution_ok {db db2 : DB} {c : GoalContribution}
    (h : applyWrite db (.insertContribution c) = .ok db2) :
    db2 = dbInsertContribution db c := by
  simp only [applyWrite] at h
  split at h
  · cases h
  · exact (Except.ok.injEq _ _).mp h.symm

/-- Success shape of the relative goal increment. -/
theorem applyWrite_incrementGoal_ok {db db2 : DB} {i : Nat} {a : Money}
    (h : applyWrite db (.incrementGoalAmount i a) = .ok db2) :
    db2 = dbIncGoal db i a := by
  simp only [applyWrite] at h
  split at h
  · exact (Except.ok.injEq _ _).mp h.symm
  · cases h

/-- Success shape of the full-row goal UPDATE. -/
theorem applyWrite_updateGoal_ok {db db2 : DB} {g : Goal}
    (h : applyWrite db (.updateGoal g) = .ok db2) :
    db2 = dbUpdateGoal db g := by
  simp only [applyWrite] at h
  split at h
  · exact (Except.ok.injEq _ _).mp h.symm
  · cases h

theorem goalInc_id (x : Goal) (i : Nat) (a : Money) :
    (if x.id == i then { x with currentAmount := x.currentAmount + a } else x).id = x.id := by
  split <;> rfl

/-- Reading a goal after the relative increment. -/
theorem getGoal_after_inc (db : DB) (i : Nat) (a : Money) :
    getGoal (dbIncGoal db i a) i = (getGoal db i).map (fun g => goalInc g a) := by
  unfold goalInc
  unfold getGoal dbIncGoal
  rw [find?_map_of_pres _ _ _ (fun x => by rw [goalInc_id])]
  cases hf : db.goals.find? (fun g => g.id == i) with
  | none => rfl
  | some g =>
    have hw := List.find?_some hf
    simp [hw]
    exact fun h => absurd (by simpa using hw) h

/-- Reading a goal after a full-row UPDATE of that same goal. -/
theorem getGoal_after_update (db : DB) (g : Goal)
    (hf : (getGoal db g.id).isSome = true) :
    getGoal (dbUpdateGoal db g) g.id = some g := by
  unfold getGoal dbUpdateGoal
  rw [find?_map_of_pres _ _ _ (fun x => by split <;> simp_all [List.find?_some])]
  unfold getGoal at hf
  cases hfind : db.goals.find? (fun x => x.id == g.id) with
  | none => rw [hfind] at hf; cases hf
  | some x =>
    have hx := List.find?_some hfind
    simp [hx]
    exact fun h => absurd (by simpa using hx) h

/-- Success inversion for `goalRepository.AddContribution`: both transaction
writes were recorded and the commit applied them in order; the goal row
existed. -/
theorem goalRepoAddContribution_ok {faults : AddContributionRepoFaults}
    {c : GoalContribution} {conn conn1 : PgConn}
    (h : goalRepoAddContribution faults c conn = .ok conn1) :
    conn1.db = dbIncGoal (dbInsertContribution conn.db c) c.goalID c.amount ∧
    (getGoal conn.db c.goalID).isSome = true := by
  by_cases hf1 : faults.insertFails
  · simp [goalRepoAddContribution, hf1] at h
  cases ha1 : applyWrite conn.db (.insertContribution c) with
  | error e =>
    simp [goalRepoAddContribution, pgBegin, txExec, applyWrites, hf1, ha1] at h
  | ok db1 =>
    by_cases hf2 : faults.updateFails
    · simp [goalRepoAddContribution, pgBegin, txExec, applyWrites, hf1, hf2, ha1] at h
    cases ha2 : applyWrite db1 (.incrementGoalAmount c.goalID c.amount) with
    | error e =>
      simp [goalRepoAddContribution, pgBegin, txExec, applyWrites, hf1, hf2, ha1, ha2] at h
    | ok db2 =>
      have hgoal : db1.goals.any (fun x => x.id == c.goalID) = true := by
        by_contra hng
        simp only [Bool.not_eq_true] at hng
        simp [applyWrite, hng] at ha2
      constructor
      · simp [goalRepoAddContribution, pgBegin, txExec, pgCommit, applyWrites,
          hf1, hf2, ha1, ha2, Except.map] at h
        rw [← h]
        have e1 := applyWrite_insertContribution_ok ha1
        have e2 := applyWrite_incrementGoal_ok ha2
        rw [e2, e1]
      · have e1 := applyWrite_insertContribution_ok ha1
        subst e1
        have hg2 : conn.db.goals.any (fun x => x.id == c.goalID) = true := hgoal
        unfold getGoal
        rw [List.find?_isSome]
        simpa using hg2

/-- C1: the claim requires that when the balance-update step of
CreateTransaction fails inside the atomic unit, nothing is persisted.  The
code violates this: repositories execute on the connection pool and never
consult the transaction stored in the context by WithTransaction (GetTx is
never called), so the inserted Transaction row survives the rollback.  At a
wallet of balance 1000, an income of 500 whose balance update is forced to
fail returns the error, yet the Transaction row is visible afterwards (the
wallet balance itself is unchanged). -/
theorem c1_rollback_violated :
    (TransactionService.create d0 10 ⟨false, true⟩ (mkTxInput 1 "income" 500)
      (mkConn ⟨[mkWallet 1 1000], [], [], [], [], [], []⟩)).1 = .error .storage ∧
    (TransactionService.create d0 10 ⟨false, true⟩ (mkTxInput 1 "income" 500)
      (mkConn ⟨[mkWallet 1 1000], [], [], [], [], [], []⟩)).2.db.transactions
      = [⟨10, 1, none, "income", 500, [], [], d0⟩] ∧
    (getWallet (TransactionService.create d0 10 ⟨false, true⟩ (mkTxInput 1 "income" 500)
      (mkConn ⟨[mkWallet 1 1000], [], [], [], [], [], []⟩)).2.db 1).map Wallet.balance
      = some 1000 := by
  simp [TransactionService.create, getWallet, mkTxInput, mkConn, mkWallet, d0, emptyDB,
    Transaction.validate, txTypeIsValid, goTrimSpace, goIsSpace, withTransaction,
    pgBegin, pgRollback, pgCommit, txRepoCreate, walletRepoUpdateBalance, poolExec,
    applyWrite, applyWrites, Except.map, Option.getD, List.find?, List.any, List.filter,
    List.map]
  norm_num

/-- C6: the invariant that a wallet balance is never negative at rest is
violated by DeleteTransaction.  From balance 0: income 800000, expense
500000, then deleting the income transaction leaves the persisted balance at
-500000 (the wallets table carries no non-negativity constraint and Delete
applies the inverse adjustment unconditionally). -/
theorem c6_delete_income_negative_balance :
    runOps d0 c6Conn0
        [.createOp 10 (mkTxInput 1 "income" 800000),
         .createOp 11 (mkTxInput 1 "expense" 500000),
         .deleteOp 10] = .ok c6Conn3 ∧
    (getWallet c6Conn3.db 1).map Wallet.balance = some (-500000) ∧
    ((-500000 : Money) < 0) := by
  have h1 : TransactionService.create d0 10 noCreateTxFaults
      (mkTxInput 1 "income" 800000) c6Conn0 = (.ok c6Tx1, c6Conn1) := by
    simp [TransactionService.create, getWallet, mkTxInput, mkConn, mkWallet, d0,
      c6Conn0, c6Conn1, c6Tx1, noCreateTxFaults, Transaction.validate, txTypeIsValid,
      goTrimSpace, goIsSpace, withTransaction, pgBegin, pgRollback, pgCommit,
      txRepoCreate, walletRepoUpdateBalance, poolExec, applyWrite, applyWrites,
      Except.map, Option.getD, List.find?, List.any, List.filter, List.map]
    norm_num
  have h2 : TransactionService.create d0 11 noCreateTxFaults
      (mkTxInput 1 "expense" 500000) c6Conn1 = (.ok c6Tx2, c6Conn2) := by
    simp [TransactionService.create, getWallet, mkTxInput, mkConn, mkWallet, d0,
      c6Conn1, c6Conn2, c6Tx1, c6Tx2, noCreateTxFaults, Transaction.validate,
      txTypeIsValid, goTrimSpace, goIsSpace, withTransaction, pgBegin, pgRollback,
      pgCommit, txRepoCreate, walletRepoUpdateBalance, poolExec, applyWrite,
      applyWrites, Except.map, Option.getD, List.find?, List.any, List.filter, List.map]
    norm_num
    simp [applyWrites]
  have h3 : TransactionService.delete noDeleteTxFaults 10 c6Conn2
      = (.ok (), c6Conn3) := by
    simp [TransactionService.delete, getWallet, getTransaction, mkWallet, d0,
      c6Conn2, c6Conn3, c6Tx1, c6Tx2, noDeleteTxFaults, withTransaction, pgBegin,
      pgRollback, pgCommit, txRepoDelete, walletRepoUpdateBalance, poolExec,
      applyWrite, applyWrites, Except.map, List.find?, List.any, List.filter, List.map]
    norm_num
  refine ⟨?_, by simp [c6Conn3, getWallet, mkWallet, List.find?], by norm_num⟩
  simp [runOps, h1, h2, h3]

/-- C9: the claim requires budget `spent` to be the expense total over the
budget period AND category.  The code passes a CategoryID filter, but
`transactionRepository.GetSummary` builds WHERE conditions only for WalletID,
StartDate and EndDate, silently dropping the category restriction: on a
database whose period holds a 100 expense in the budget category and a 50
expense in another category, GetStatus reports spent = 150 while the
category-restricted total of the spec is 100. -/
theorem c9_category_filter_ignored :
    (BudgetService.getStatus c9DB 5).map BudgetStatus.spent = .ok 150 ∧
    specCategorySpent c9DB c9Budget = 100 ∧
    (BudgetService.getStatus c9DB 5).map BudgetStatus.spent
      ≠ .ok (specCategorySpent c9DB c9Budget) := by
  refine ⟨?_, ?_, ?_⟩ <;>
    simp [BudgetService.getStatus, getSummary, summaryWhere, getBudget, c9DB, c9Budget,
      specCategorySpent, sumAmounts, d0, dateLe, Date.toDays, daysFromCivilFirst,
      Except.map, List.find?, List.filter, List.map]
  all_goals norm_num

/-- C3 counterexample: the claim quantifies over every active wallet, but for
an active wallet of balance 0 the expense of amount exactly equal to the
balance (0) is rejected with the validation error on non-positive amounts,
not accepted. -/
theorem c3_zero_balance_counterexample :
    (TransactionService.create d0 10 noCreateTxFaults (mkTxInput 1 "expense" 0)
      (mkConn ⟨[mkWallet 1 0], [], [], [], [], [], []⟩)).1 = .error .txInvalidAmount ∧
    (TransactionService.create d0 10 noCreateTxFaults (mkTxInput 1 "expense" 0)
      (mkConn ⟨[mkWallet 1 0], [], [], [], [], [], []⟩)).2
      = mkConn ⟨[mkWallet 1 0], [], [], [], [], [], []⟩ := by
  constructor <;>
    simp [TransactionService.create, getWallet, mkTxInput, mkConn, mkWallet, d0,
      noCreateTxFaults, Transaction.validate, txTypeIsValid, goTrimSpace, goIsSpace,
      List.find?]

/-- C10 counterexample: `Wallet.Validate` does not accept exactly the wallets
the claim describes.  A currency of three non-letter characters (`12#`)
passes validation although it is not a 3-letter uppercase code, and a
51-character name of two-byte characters is rejected (the code compares the
UTF-8 byte length against 100) although it is at most 100 characters. -/
theorem c10_wallet_validate_counterexample :
    c10BadCurrency.validate = .ok c10BadCurrency ∧
    specWalletAccepted c10BadCurrency = false ∧
    c10LongName.validate = .error .walletNameTooLong ∧
    specWalletAccepted c10LongName = true := by
  refine ⟨?_, ?_, ?_, ?_⟩ <;>
    simp [Wallet.validate, specWalletAccepted, c10BadCurrency, c10LongName,
      walletTypeIsValid, goTrimSpace, goIsSpace, goToUpper, goToUpperChar, goLen,
      utf8Size, List.replicate, List.map, List.all]

/-- Forward evaluation of a successful `TransactionService.Create` with no
injected faults: given the preconditions, the exact result and committed
state. -/
theorem create_ok_of {now : Date} {newId : Nat} {input : CreateTransactionInput}
    {conn : PgConn} {w : Wallet}
    (hw : getWallet conn.db input.walletID = some w) (hact : w.isActive = true)
    (hwid : input.walletID ≠ 0) (hty : txTypeIsValid input.type = true)
    (hpos : 0 < input.amount)
    (hbal : ¬ (input.type = "expense" ∧ w.balance < input.amount))
    (hdup : conn.db.transactions.any (fun x => x.id == newId) = false) :
    TransactionService.create now newId noCreateTxFaults input conn
      = (.ok { id := newId, walletID := input.walletID, categoryID := input.categoryID,
               type := input.type, amount := input.amount,
               description := goTrimSpace input.description, tags := input.tags,
               transactionDate := input.date.getD now },
         ⟨dbSetBalance
            (dbInsertTx conn.db
              { id := newId, walletID := input.walletID, categoryID := input.categoryID,
                type := input.type, amount := input.amount,
                description := goTrimSpace input.description, tags := input.tags,
                transactionDate := input.date.getD now })
            w.id
            (if input.type = "income" then w.balance + input.amount
             else w.balance - input.amount), none⟩) := by
  have hmem : w ∈ conn.db.wallets := List.mem_of_find?_eq_some hw
  have hany : conn.db.wallets.any (fun x => x.id == w.id) = true := by
    rw [List.any_eq_true]
    exact ⟨w, hmem, by simp⟩
  have hval : Transaction.validate
      { id := newId, walletID := input.walletID, categoryID := input.categoryID,
        type := input.type, amount := input.amount, description := input.description,
        tags := input.tags, transactionDate := input.date.getD now }
      = .ok { id := newId, walletID := input.walletID, categoryID := input.categoryID,
              type := input.type, amount := input.amount,
              description := goTrimSpace input.description, tags := input.tags,
              transactionDate := input.date.getD now } := by
    simp [Transaction.validate, hwid, hty, not_le.mpr hpos]
  simp only [TransactionService.create, hw]
  rw [if_neg (by simp [hact])]
  rw [if_neg hbal]
  rw [hval]
  simp only [noCreateTxFaults, txRepoCreate, walletRepoUpdateBalance,
    withTransaction, pgBegin, pgRollback, pgCommit, poolExec, Bool.false_eq_true,
    if_false, Except.map]
  simp only [applyWrite, dbInsertTx, hdup, Bool.false_eq_true, if_false]
  have hany2 : (dbInsertTx conn.db
      { id := newId, walletID := input.walletID, categoryID := input.categoryID,
        type := input.type, amount := input.amount,
        description := goTrimSpace input.description, tags := input.tags,
        transactionDate := input.date.getD now }).wallets.any
      (fun x => x.id == w.id) = true := hany
  simp only [dbInsertTx] at hany2
  simp [hany2, applyWrites, dbSetBalance, dbInsertTx]

/-- C2: every successful Transfer creation happened between two distinct
active wallets with positive amount and non-negative fee, and it decreased
the source balance by exactly amount + fee, increased the destination balance
by exactly the amount, decreased the sum of the two balances by exactly the
fee, and appended the Transfer row; all three writes were applied (the
failure side of all-or-nothing is the subject of C1). -/
theorem c2_transfer_balances {newId : Nat} {faults : TransferFaults}
    {input : CreateTransferInput} {conn : PgConn} {tr : Transfer} {conn2 : PgConn}
    (h : TransferService.create newId faults input conn = (.ok tr, conn2)) :
    ∃ fromW toW, getWallet conn.db input.fromWalletID = some fromW ∧
      getWallet conn.db input.toWalletID = some toW ∧
      0 < input.amount ∧ 0 ≤ input.fee ∧ input.fromWalletID ≠ input.toWalletID ∧
      fromW.isActive = true ∧ toW.isActive = true ∧
      conn2.db.transfers = conn.db.transfers ++ [tr] ∧
      (getWallet conn2.db input.fromWalletID).map Wallet.balance
        = some (fromW.balance - (input.amount + input.fee)) ∧
      (getWallet conn2.db input.toWalletID).map Wallet.balance
        = some (toW.balance + input.amount) ∧
      (fromW.balance - (input.amount + input.fee)) + (toW.balance + input.amount)
        = fromW.balance + toW.balance - input.fee := by
  obtain ⟨fromW, toW, hsame, hff, hfact, htf, htact, hamt, hfee, hbal, htr, hdb⟩ :=
    transfer_ok_state h
  have hfid : fromW.id = input.fromWalletID := by simpa using List.find?_some hff
  have htid : toW.id = input.toWalletID := by simpa using List.find?_some htf
  have hne : fromW.id ≠ toW.id := by rw [hfid, htid]; exact hsame
  refine ⟨fromW, toW, hff, htf, hamt, hfee, hsame, hfact, htact, ?_, ?_, ?_, by ring⟩
  · rw [hdb]; rfl
  · rw [hdb, ← hfid]
    rw [(getWallet_after_updateBalance _ toW.id _).2 fromW.id hne]
    have hself := (getWallet_after_updateBalance
      (dbInsertTransfer conn.db tr) fromW.id (fromW.balance - (input.amount + input.fee))).1
    rw [hself]
    have : getWallet (dbInsertTransfer conn.db tr) fromW.id = some fromW := by
      rw [hfid]; exact hff
    rw [this]
    rfl
  · rw [hdb, ← htid]
    have hself := (getWallet_after_updateBalance
      (dbSetBalance (dbInsertTransfer conn.db tr) fromW.id
        (fromW.balance - (input.amount + input.fee))) toW.id
      (toW.balance + input.amount)).1
    rw [hself]
    have hother := (getWallet_after_updateBalance
      (dbInsertTransfer conn.db tr) fromW.id
      (fromW.balance - (input.amount + input.fee))).2 toW.id (Ne.symm hne)
    rw [hother]
    have : getWallet (dbInsertTransfer conn.db tr) toW.id = some toW := by
      rw [htid]; exact htf
    rw [this]
    rfl

/-- C2 witness (scenario B of the spec): the transfer of 100000 with fee 2000
from a 500000 wallet to an empty wallet succeeds, and the claim theorem
yields the balances 398000 and 100000 and the fee-only loss of the sum. -/
theorem c2_transfer_balances_witness :
    TransferService.create 20 noTransferFaults ⟨1, 2, 100000, 2000, []⟩ c2Conn0
      = (.ok c2Tr, c2Conn2) ∧
    (getWallet c2Conn2.db 1).map Wallet.balance = some 398000 ∧
    (getWallet c2Conn2.db 2).map Wallet.balance = some 100000 ∧
    ((398000 : Money) + 100000 = 500000 + 0 - 2000) := by
  have hrun : TransferService.create 20 noTransferFaults ⟨1, 2, 100000, 2000, []⟩ c2Conn0
      = (.ok c2Tr, c2Conn2) := by
    simp [TransferService.create, getWallet, c2Conn0, c2Tr, c2Conn2, mkConn, mkWallet,
      noTransferFaults, Transfer.validate, goTrimSpace, goIsSpace, withTransaction,
      pgBegin, pgRollback, pgCommit, transferRepoCreate, walletRepoUpdateBalance,
      poolExec, applyWrite, applyWrites, Except.map, List.find?, List.any, List.filter,
      List.map]
    try norm_num
    try simp [applyWrites]
    try norm_num
  obtain ⟨fromW, toW, hf, ht, _, _, _, _, _, _, hfrom, hto, _⟩ :=
    c2_transfer_balances hrun
  have hf2 : fromW = mkWallet 1 500000 := by
    have : some fromW = some (mkWallet 1 500000) := by
      rw [← hf]
      simp [getWallet, c2Conn0, mkConn, mkWallet, List.find?]
    simpa using this
  have ht2 : toW = mkWallet 2 0 := by
    have : some toW = some (mkWallet 2 0) := by
      rw [← ht]
      simp [getWallet, c2Conn0, mkConn, mkWallet, List.find?]
    simpa using this
  subst hf2
  subst ht2
  refine ⟨hrun, ?_, ?_, by norm_num⟩
  · rw [hfrom]
    simp [mkWallet]
    try norm_num
  · rw [hto]
    simp [mkWallet]
    try norm_num

/-- C3 (amended): for every active wallet holding a positive balance, an
expense of amount exactly the current balance is accepted and leaves the
stored balance at 0, while an expense of amount strictly greater than the
balance fails with InsufficientBalance and returns the connection untouched
(the check precedes the atomic unit, so no write happens).  The amendment
restricts the first half to positive balances: at balance 0 the expense of
amount 0 is rejected by validation (see the counterexample). -/
theorem c3_exact_balance_amended {now : Date} {newId : Nat} {conn : PgConn}
    {wid : Nat} {w : Wallet} (cid : Option Nat) (ds : GoStr) (tg : List GoStr)
    (dt : Option Date)
    (hw : getWallet conn.db wid = some w) (hact : w.isActive = true)
    (hwid : wid ≠ 0) (hpos : 0 < w.balance)
    (hdup : conn.db.transactions.any (fun x => x.id == newId) = false) :
    (∃ t conn2,
      TransactionService.create now newId noCreateTxFaults
          ⟨wid, cid, "expense", w.balance, ds, tg, dt⟩ conn = (.ok t, conn2) ∧
        (getWallet conn2.db wid).map Wallet.balance = some 0) ∧
    (∀ amt, w.balance < amt →
      TransactionService.create now newId noCreateTxFaults
          ⟨wid, cid, "expense", amt, ds, tg, dt⟩ conn
        = (.error .insufficientBalance, conn)) := by
  have hid : w.id = wid := by simpa using List.find?_some hw
  constructor
  · have hrun := @create_ok_of now newId ⟨wid, cid, "expense", w.balance, ds, tg, dt⟩
      conn w hw hact hwid (by simp [txTypeIsValid]) hpos
      (fun hh => absurd hh.2 (lt_irrefl _)) hdup
    dsimp only at hrun
    refine ⟨_, _, hrun, ?_⟩
    dsimp only
    have hred : (if ("expense" : String) = "income" then w.balance + w.balance
        else w.balance - w.balance) = 0 := by simp
    rw [hred, hid]
    rw [(getWallet_after_updateBalance _ wid 0).1]
    have hg : getWallet (dbInsertTx conn.db
        { id := newId, walletID := wid, categoryID := cid, type := "expense",
          amount := w.balance, description := goTrimSpace ds, tags := tg,
          transactionDate := dt.getD now }) wid = some w := hw
    rw [hg]
    simp
  · intro amt hamt
    simp only [TransactionService.create, hw]
    rw [if_neg (by simp [hact])]
    rw [if_pos (And.intro (by trivial) hamt)]

/-- C3 witness (scenario A plus the boundary case): at balance 1000000 the
expense of exactly 1000000 succeeds leaving 0, and the expense of 1500000
fails with InsufficientBalance leaving the state untouched. -/
theorem c3_exact_balance_amended_witness :
    (∃ t conn2,
      TransactionService.create d0 10 noCreateTxFaults
          ⟨1, none, "expense", 1000000, [], [], some d0⟩
          (mkConn ⟨[mkWallet 1 1000000], [], [], [], [], [], []⟩) = (.ok t, conn2) ∧
        (getWallet conn2.db 1).map Wallet.balance = some 0) ∧
    TransactionService.create d0 10 noCreateTxFaults
        ⟨1, none, "expense", 1500000, [], [], some d0⟩
        (mkConn ⟨[mkWallet 1 1000000], [], [], [], [], [], []⟩)
      = (.error .insufficientBalance,
         mkConn ⟨[mkWallet 1 1000000], [], [], [], [], [], []⟩) := by
  have h := @c3_exact_balance_amended d0 10
    (mkConn ⟨[mkWallet 1 1000000], [], [], [], [], [], []⟩)
    1 (mkWallet 1 1000000) none [] [] (some d0)
    (by simp [getWallet, mkConn, mkWallet, List.find?]) rfl (by decide)
    (by norm_num [mkWallet]) rfl
  exact ⟨h.1, h.2 1500000 (by norm_num [mkWallet])⟩

/-- C5: adding a contribution of positive amount to an existing goal inserts
the GoalContribution row and increments `goal.currentAmount` relatively, both
inside one database transaction; nothing is persisted when the operation
errors; afterwards, when the re-fetch and status update are not disturbed and
the incremented amount reaches the target of a still-active goal, the status
transitions to `completed`; and failures of the best-effort re-fetch or
status update never turn the result into an error. -/
theorem c5_goal_contribution {newId : Nat} {faults : AddContributionFaults}
    {goalID : Nat} {amount : Money} {note : GoStr} {conn : PgConn} {g : Goal}
    (hgid : goalID ≠ 0) (hpos : 0 < amount)
    (hg : getGoal conn.db goalID = some g)
    (hdup : conn.db.contributions.any (fun x => x.id == newId) = false) :
    (∀ e, (GoalService.addContribution newId faults goalID amount note conn).1 = .error e →
      (GoalService.addContribution newId faults goalID amount note conn).2 = conn) ∧
    (faults.repo.insertFails = false → faults.repo.updateFails = false →
      (GoalService.addContribution newId faults goalID amount note conn).1 = .ok () ∧
      (GoalService.addContribution newId faults goalID amount note conn).2.db.contributions
        = conn.db.contributions ++ [⟨newId, goalID, amount, note⟩] ∧
      (getGoal (GoalService.addContribution newId faults goalID amount note conn).2.db
          goalID).map Goal.currentAmount = some (g.currentAmount + amount) ∧
      (faults.refetchFails = false → faults.statusUpdateFails = false →
        g.status = "active" → g.targetAmount ≤ g.currentAmount + amount →
        (getGoal (GoalService.addContribution newId faults goalID amount note conn).2.db
            goalID).map Goal.status = some "completed")) := by
  obtain ⟨⟨fi, fu⟩, fr, fs⟩ := faults
  have hgeq : g.id = goalID := by
    have := List.find?_some hg
    simpa using this
  have hval : GoalContribution.validate ⟨newId, goalID, amount, note⟩
      = .ok ⟨newId, goalID, amount, note⟩ := by
    simp [GoalContribution.validate, hgid, not_le.mpr hpos]
  have hanyg : conn.db.goals.any (fun x => x.id == goalID) = true := by
    rw [List.any_eq_true]
    exact ⟨g, List.mem_of_find?_eq_some hg, by simp [hgeq]⟩
  have hg1 : getGoal (dbIncGoal (dbInsertContribution conn.db ⟨newId, goalID, amount, note⟩)
      goalID amount) goalID = some (goalInc g amount) := by
    rw [getGoal_after_inc]
    have h0 : getGoal (dbInsertContribution conn.db ⟨newId, goalID, amount, note⟩) goalID
        = some g := hg
    rw [h0]
    rfl
  constructor
  · intro e he
    by_cases hfi : fi
    · simp [GoalService.addContribution, hval, goalRepoAddContribution, hfi]
    by_cases hfu : fu
    · simp [GoalService.addContribution, hval, goalRepoAddContribution, pgBegin,
        txExec, applyWrites, applyWrite, hdup, hfi, hfu]
    · exfalso
      have hrepo : goalRepoAddContribution ⟨fi, fu⟩ ⟨newId, goalID, amount, note⟩ conn
          = .ok ⟨dbIncGoal (dbInsertContribution conn.db ⟨newId, goalID, amount, note⟩)
              goalID amount, none⟩ := by
        simp only [Bool.not_eq_true] at hfi hfu
        subst hfi
        subst hfu
        simp [goalRepoAddContribution, pgBegin, txExec, pgCommit, applyWrites,
          applyWrite, hdup, hanyg, Except.map, dbInsertContribution, dbIncGoal]
      simp only [GoalService.addContribution, hval, hrepo] at he
      split at he
      · cases he
      · split at he
        · cases he
        · split at he
          · split at he
            · cases he
            · cases he
          · cases he
  · intro hfi hfu
    subst hfi
    subst hfu
    have hrepo : goalRepoAddContribution ⟨false, false⟩ ⟨newId, goalID, amount, note⟩ conn
        = .ok ⟨dbIncGoal (dbInsertContribution conn.db ⟨newId, goalID, amount, note⟩)
            goalID amount, none⟩ := by
      simp [goalRepoAddContribution, pgBegin, txExec, pgCommit, applyWrites,
        applyWrite, hdup, hanyg, Except.map, dbInsertContribution, dbIncGoal]
    by_cases hfr : fr
    · simp only [GoalService.addContribution, hval, hrepo, hfr]
      rw [if_pos trivial]
      refine ⟨rfl, by simp [dbIncGoal, dbInsertContribution], by rw [hg1]; rfl, ?_⟩
      intro hc
      cases hc
    by_cases hdone : (goalInc g amount).isCompleted ∧ (goalInc g amount).status = "active"
    · by_cases hfs : fs
      · simp only [GoalService.addContribution, hval, hrepo, Bool.not_eq_true] at hfr ⊢
        subst hfr
        rw [if_neg (by simp)]
        rw [hg1]
        dsimp only
        rw [if_pos hdone]
        simp only [goalRepoUpdate, hfs]
        rw [if_pos trivial]
        refine ⟨rfl, by simp [dbIncGoal, dbInsertContribution], by rw [hg1]; rfl, ?_⟩
        intro _ hc
        cases hc
      · have hanyg2 : (dbIncGoal (dbInsertContribution conn.db
            ⟨newId, goalID, amount, note⟩) goalID amount).goals.any
            (fun x => x.id == (goalComplete (goalInc g amount)).id) = true := by
          simp only [dbIncGoal, dbInsertContribution, List.any_map]
          rw [List.any_eq_true]
          refine ⟨g, List.mem_of_find?_eq_some hg, ?_⟩
          simp [goalInc_id, goalComplete, goalInc, hgeq]
        have hupd : goalRepoUpdate fs (goalComplete (goalInc g amount))
            ⟨dbIncGoal (dbInsertContribution conn.db ⟨newId, goalID, amount, note⟩)
              goalID amount, none⟩
            = .ok ⟨dbUpdateGoal (dbIncGoal (dbInsertContribution conn.db
                ⟨newId, goalID, amount, note⟩) goalID amount)
                (goalComplete (goalInc g amount)), none⟩ := by
          simp only [Bool.not_eq_true] at hfs
          subst hfs
          simp [goalRepoUpdate, poolExec, applyWrite, hanyg2, Except.map, dbUpdateGoal]
        have hread : getGoal (dbUpdateGoal (dbIncGoal (dbInsertContribution conn.db
            ⟨newId, goalID, amount, note⟩) goalID amount)
            (goalComplete (goalInc g amount))) goalID
            = some (goalComplete (goalInc g amount)) := by
          have hsome := getGoal_after_update (dbIncGoal (dbInsertContribution conn.db
              ⟨newId, goalID, amount, note⟩) goalID amount)
            (goalComplete (goalInc g amount))
            (by
              show (getGoal _ (goalComplete (goalInc g amount)).id).isSome = true
              have : (goalComplete (goalInc g amount)).id = goalID := hgeq
              rw [this, hg1]
              rfl)
          have hid2 : (goalComplete (goalInc g amount)).id = goalID := hgeq
          rw [hid2] at hsome
          exact hsome
        simp only [GoalService.addContribution, hval, hrepo, Bool.not_eq_true] at hfr ⊢
        subst hfr
        rw [if_neg (by simp)]
        rw [hg1]
        dsimp only
        rw [if_pos hdone]
        rw [show ({ goalInc g amount with status := "completed" } : Goal)
            = goalComplete (goalInc g amount) from rfl]
        rw [hupd]
        refine ⟨rfl, by simp [dbUpdateGoal, dbIncGoal, dbInsertContribution], ?_, ?_⟩
        · rw [hread]
          simp [goalComplete, goalInc]
        · intro _ _ _ _
          rw [hread]
          simp [goalComplete, goalInc]
    · simp only [GoalService.addContribution, hval, hrepo, Bool.not_eq_true] at hfr ⊢
      subst hfr
      rw [if_neg (by simp)]
      rw [hg1]
      dsimp only
      rw [if_neg hdone]
      refine ⟨rfl, by simp [dbIncGoal, dbInsertContribution], by rw [hg1]; rfl, ?_⟩
      intro _ _ hstat hreach
      exact absurd ⟨by simpa [Goal.isCompleted, goalInc] using hreach,
        by simpa [goalInc] using hstat⟩ hdone

/-- C5 witness (scenario C of the spec): contributing 300000 to a goal with
target 1000000 and current 800000 succeeds, yields current 1100000, and the
status transitions from active to completed. -/
theorem c5_goal_contribution_witness :
    (GoalService.addContribution 21 noAddContributionFaults 7 300000 [] c5Conn0).1
      = .ok () ∧
    (getGoal (GoalService.addContribution 21 noAddContributionFaults 7 300000 []
        c5Conn0).2.db 7).map Goal.currentAmount = some 1100000 ∧
    (getGoal (GoalService.addContribution 21 noAddContributionFaults 7 300000 []
        c5Conn0).2.db 7).map Goal.status = some "completed" := by
  have h := @c5_goal_contribution 21 noAddContributionFaults 7 300000 [] c5Conn0 c5Goal
    (by decide) (by norm_num) (by simp [getGoal, c5Conn0, c5Goal, mkConn, List.find?]) rfl
  obtain ⟨h1, h2, h3, h4⟩ := h.2 rfl rfl
  refine ⟨h1, ?_, ?_⟩
  · rw [h3]
    norm_num [c5Goal]
  · exact h4 rfl rfl rfl (by norm_num [c5Goal])

/-- Success shape of the recurring full-row UPDATE. -/
theorem applyWrite_updateRecurring_ok {db db2 : DB} {r : RecurringTransaction}
    (h : applyWrite db (.updateRecurring r) = .ok db2) :
    db2 = dbUpdateRecurring db r := by
  simp only [applyWrite] at h
  split at h
  · exact (Except.ok.injEq _ _).mp h.symm
  · cases h

/-- C7: for every active recurring entry, AdvanceNextDue moves the due date
by exactly one frequency unit (daily +1 day, weekly +7 days, monthly +1
month, yearly +1 year, in AddDate arithmetic) and clears isActive exactly
when an end date is set and the new due date is after it; and a successfully
processed due entry yields a generated transaction dated with the old
nextDue, appended to the ledger, and the stored entry replaced by its
advanced version. -/
theorem c7_recurring_advance {r : RecurringTransaction} (hact : r.isActive = true) :
    ((r.frequency = "daily" → r.advanceNextDue.nextDue = goAddDate r.nextDue 0 0 1) ∧
     (r.frequency = "weekly" → r.advanceNextDue.nextDue = goAddDate r.nextDue 0 0 7) ∧
     (r.frequency = "monthly" → r.advanceNextDue.nextDue = goAddDate r.nextDue 0 1 0) ∧
     (r.frequency = "yearly" → r.advanceNextDue.nextDue = goAddDate r.nextDue 1 0 0)) ∧
    (r.advanceNextDue.isActive = false ↔
      ∃ ed, r.endDate = some ed ∧ dateLt ed r.advanceNextDue.nextDue = true) ∧
    (∀ now nid fts fu t conn c1 c2,
      TransactionService.create now nid fts (recurringCreateInput r) conn = (.ok t, c1) →
      recurringRepoUpdate fu r.advanceNextDue c1 = .ok c2 →
      t.transactionDate = r.nextDue ∧
      c1.db.transactions = conn.db.transactions ++ [t] ∧
      c2.db = dbUpdateRecurring c1.db r.advanceNextDue) := by
  refine ⟨⟨?_, ?_, ?_, ?_⟩, ?_, ?_⟩
  · intro h; simp [RecurringTransaction.advanceNextDue, h]
  · intro h; simp [RecurringTransaction.advanceNextDue, h]
  · intro h; simp [RecurringTransaction.advanceNextDue, h]
  · intro h; simp [RecurringTransaction.advanceNextDue, h]
  · cases hed : r.endDate with
    | none => simp [RecurringTransaction.advanceNextDue, hed, hact]
    | some ed =>
      by_cases hlt : dateLt ed (r.advanceNextDue.nextDue) = true
      · have hlt2 := hlt
        simp only [RecurringTransaction.advanceNextDue, hed] at hlt2 ⊢
        simp [hlt2, hact]
      · have hlt2 : dateLt ed (r.advanceNextDue.nextDue) = false := by
          simpa using hlt
        simp only [RecurringTransaction.advanceNextDue, hed] at hlt2 ⊢
        simp [hlt2, hact]
  · intro now nid fts fu t conn c1 c2 hc hu
    obtain ⟨w, _, _, _, _, _, _, ht, _, hdb⟩ := create_ok_state hc
    refine ⟨?_, ?_, ?_⟩
    · rw [ht]; rfl
    · rw [hdb]; rfl
    · by_cases hfu : fu
      · simp [recurringRepoUpdate, hfu] at hu
      · simp only [recurringRepoUpdate, hfu, Bool.false_eq_true, if_neg,
          Bool.not_eq_true] at hu
        cases ha : applyWrite c1.db (.updateRecurring r.advanceNextDue) with
        | error e => rw [if_neg (by simp [hfu])] at hu; simp [poolExec, ha, Except.map] at hu
        | ok db2 =>
          rw [if_neg (by simp [hfu])] at hu
          simp only [poolExec, ha, Except.map] at hu
          have := applyWrite_updateRecurring_ok ha
          rw [← (Except.ok.injEq _ _).mp hu]
          exact this

/-- C7 witness (scenario D of the spec): the monthly entry due 2026-01-25
with end date 2026-02-28 advances to 2026-02-25 and stays active; advancing
again yields 2026-03-25 and deactivates; and the two concrete ProcessDue runs
generate transactions dated 2026-01-25 and 2026-02-25 accordingly. -/
theorem c7_recurring_advance_witness :
    c7Rec0.advanceNextDue.nextDue = ⟨2026, 2, 25⟩ ∧
    c7Rec0.advanceNextDue.isActive = true ∧
    c7Rec0.advanceNextDue.advanceNextDue.nextDue = ⟨2026, 3, 25⟩ ∧
    c7Rec0.advanceNextDue.advanceNextDue.isActive = false ∧
    RecurringService.processDue ⟨2026, 1, 25⟩ ⟨2026, 1, 25⟩ (fun i => 100 + i)
      (fun _ => noRecurringEntryFaults) c7Conn0 = (.ok 1, c7Conn1) ∧
    RecurringService.processDue ⟨2026, 2, 26⟩ ⟨2026, 2, 26⟩ (fun i => 200 + i)
      (fun _ => noRecurringEntryFaults) c7Conn1 = (.ok 1, c7Conn2) := by
  have h1 := (@c7_recurring_advance c7Rec0 rfl).1.2.2.1 rfl
  have h2 := (@c7_recurring_advance c7Rec0.advanceNextDue (by decide)).1.2.2.1 (by decide)
  refine ⟨h1.trans (by decide), by decide, h2.trans (by decide), by decide, ?_, ?_⟩
  · simp [RecurringService.processDue, processLoop, getDue, insertByNextDue,
      recurringCreateInput, TransactionService.create, getWallet, c7Conn0, c7Conn1,
      c7Rec0, c7Rec1, c7Tx1, mkConn, mkWallet, noRecurringEntryFaults,
      Transaction.validate, txTypeIsValid, goTrimSpace, goIsSpace, withTransaction,
      pgBegin, pgRollback, pgCommit, txRepoCreate, walletRepoUpdateBalance,
      recurringRepoUpdate, poolExec, applyWrite, applyWrites,
      RecurringTransaction.advanceNextDue, goAddDate, dateOfDays, daysFromCivilFirst,
      Date.toDays, dateLt, dateLe, Except.map, Option.getD, List.find?, List.any,
      List.filter, List.map]
    try norm_num [applyWrites, Except.map]
  · simp [RecurringService.processDue, processLoop, getDue, insertByNextDue,
      recurringCreateInput, TransactionService.create, getWallet, c7Conn1, c7Conn2,
      c7Rec1, c7Rec2, c7Tx1, c7Tx2, mkConn, mkWallet, noRecurringEntryFaults,
      Transaction.validate, txTypeIsValid, goTrimSpace, goIsSpace, withTransaction,
      pgBegin, pgRollback, pgCommit, txRepoCreate, walletRepoUpdateBalance,
      recurringRepoUpdate, poolExec, applyWrite, applyWrites,
      RecurringTransaction.advanceNextDue, goAddDate, dateOfDays, daysFromCivilFirst,
      Date.toDays, dateLt, dateLe, Except.map, Option.getD, List.find?, List.any,
      List.filter, List.map]
    try norm_num [applyWrites, Except.map]

/-- C8: ProcessDue is partial-failure tolerant.  It always returns without
error; a failing transaction creation skips only that entry and processing
continues on the remaining entries from the state the failed attempt left; a
failing recurring update likewise skips only that entry; and only an entry
whose creation and update both succeed increments the returned count. -/
theorem c8_processDue_partial_failure :
    (∀ today now newIds faults conn, ∃ n c,
      RecurringService.processDue today now newIds faults conn = (.ok n, c)) ∧
    (∀ now newIds faults idx r rest conn acc e c1,
      TransactionService.create now (newIds idx) (faults idx).createTx
          (recurringCreateInput r) conn = (.error e, c1) →
      processLoop now newIds faults idx (r :: rest) conn acc
        = processLoop now newIds faults (idx + 1) rest c1 acc) ∧
    (∀ now newIds faults idx r rest conn acc t c1 e,
      TransactionService.create now (newIds idx) (faults idx).createTx
          (recurringCreateInput r) conn = (.ok t, c1) →
      recurringRepoUpdate (faults idx).updateFails r.advanceNextDue c1 = .error e →
      processLoop now newIds faults idx (r :: rest) conn acc
        = processLoop now newIds faults (idx + 1) rest c1 acc) ∧
    (∀ now newIds faults idx r rest conn acc t c1 c2,
      TransactionService.create now (newIds idx) (faults idx).createTx
          (recurringCreateInput r) conn = (.ok t, c1) →
      recurringRepoUpdate (faults idx).updateFails r.advanceNextDue c1 = .ok c2 →
      processLoop now newIds faults idx (r :: rest) conn acc
        = processLoop now newIds faults (idx + 1) rest c2 (acc + 1)) := by
  refine ⟨?_, ?_, ?_, ?_⟩
  · intro today now newIds faults conn
    exact ⟨_, _, rfl⟩
  · intro now newIds faults idx r rest conn acc e c1 hc
    simp only [processLoop, hc]
  · intro now newIds faults idx r rest conn acc t c1 e hc hu
    simp only [processLoop, hc, hu]
  · intro now newIds faults idx r rest conn acc t c1 c2 hc hu
    simp only [processLoop, hc, hu]

/-- C8 witness: with two due entries where the first references a missing
wallet (its creation fails with NotFound) and the second is processable, the
failing entry is skipped, the second is still processed, the returned count
is 1 and no error is reported. -/
theorem c8_processDue_partial_failure_witness :
    TransactionService.create ⟨2026, 1, 25⟩ 100 noCreateTxFaults
        (recurringCreateInput c8BadRec) c7Conn0
      = (.error .notFound, c7Conn0) ∧
    processLoop ⟨2026, 1, 25⟩ (fun i => 100 + i) (fun _ => noRecurringEntryFaults) 0
        [c8BadRec, c7Rec0] c7Conn0 0
      = processLoop ⟨2026, 1, 25⟩ (fun i => 100 + i) (fun _ => noRecurringEntryFaults) 1
          [c7Rec0] c7Conn0 0 ∧
    processLoop ⟨2026, 1, 25⟩ (fun i => 100 + i) (fun _ => noRecurringEntryFaults) 0
        [c8BadRec, c7Rec0] c7Conn0 0 = (1, c8Conn1) := by
  have hc : TransactionService.create ⟨2026, 1, 25⟩ 100 noCreateTxFaults
      (recurringCreateInput c8BadRec) c7Conn0 = (.error .notFound, c7Conn0) := by
    simp [TransactionService.create, getWallet, recurringCreateInput, c8BadRec,
      c7Conn0, mkConn, mkWallet, List.find?]
  refine ⟨hc, ?_, ?_⟩
  · exact c8_processDue_partial_failure.2.1 ⟨2026, 1, 25⟩ (fun i => 100 + i)
      (fun _ => noRecurringEntryFaults) 0 c8BadRec [c7Rec0] c7Conn0 0 .notFound
      c7Conn0 hc
  · simp [processLoop, hc, recurringCreateInput, TransactionService.create, getWallet,
      c8BadRec, c7Conn0, c7Rec0, c7Rec1, c8Tx, c8Conn1, mkConn, mkWallet,
      noRecurringEntryFaults, Transaction.validate, txTypeIsValid, goTrimSpace,
      goIsSpace, withTransaction, pgBegin, pgRollback, pgCommit, txRepoCreate,
      walletRepoUpdateBalance, recurringRepoUpdate, poolExec, applyWrite, applyWrites,
      RecurringTransaction.advanceNextDue, goAddDate, dateOfDays, daysFromCivilFirst,
      Date.toDays, dateLt, dateLe, Except.map, Option.getD, List.find?, List.any,
      List.filter, List.map]
    try norm_num [processLoop, recurringCreateInput, TransactionService.create,
      getWallet, c8BadRec, c7Conn0, c7Rec0, c7Rec1, c8Tx, c8Conn1, mkConn, mkWallet,
      noRecurringEntryFaults, Transaction.validate, txTypeIsValid, goTrimSpace,
      goIsSpace, withTransaction, pgBegin, pgRollback, pgCommit, txRepoCreate,
      walletRepoUpdateBalance, recurringRepoUpdate, poolExec, applyWrite, applyWrites,
      RecurringTransaction.advanceNextDue, goAddDate, dateOfDays, daysFromCivilFirst,
      Date.toDays, dateLt, dateLe, Except.map, Option.getD, List.find?, List.any,
      List.filter, List.map]

/-- C10 (amended): `Wallet.Validate` accepts exactly the wallets whose
trimmed name is non-empty and at most 100 UTF-8 bytes, whose type is one of
cash, bank, ewallet, whose currency is exactly 3 UTF-8 bytes after trimming
and upper-casing (letters are not required), and whose balance is
non-negative; it is a pure function, so acceptance and rejection happen
before any I/O. -/
theorem c10_wallet_validate_amended (w : Wallet) :
    (∃ w2, w.validate = .ok w2) ↔
      (goTrimSpace w.name ≠ [] ∧ goLen (goTrimSpace w.name) ≤ 100 ∧
       walletTypeIsValid w.type = true ∧
       goLen (goToUpper (goTrimSpace w.currency)) = 3 ∧ 0 ≤ w.balance) := by
  by_cases h1 : goTrimSpace w.name = []
  · simp [Wallet.validate, h1]
  by_cases h2 : 100 < goLen (goTrimSpace w.name)
  · simp [Wallet.validate, h1, h2, not_le.mpr h2]
  by_cases h3 : walletTypeIsValid w.type
  case neg => simp [Wallet.validate, h1, h2, h3]
  by_cases h4 : goLen (goToUpper (goTrimSpace w.currency)) = 3
  case neg => simp [Wallet.validate, h1, h2, h3, h4]
  by_cases h5 : w.balance < 0
  · simp [Wallet.validate, h1, h2, h3, h4, h5, not_le.mpr h5]
  · simp [Wallet.validate, h1, h2, h3, h4, h5, not_lt.mp h2, not_lt.mp h5]

/-- Income total after appending one transaction row. -/
theorem incomeSum_insert (db : DB) (t : Transaction) (wid : Nat) :
    incomeSum (dbInsertTx db t) wid = incomeSum db wid +
      (if t.walletID == wid && t.type == "income" then t.amount else 0) := by
  unfold incomeSum sumAmounts dbInsertTx
  rw [List.filter_append, List.map_append, List.sum_append]
  split <;> simp_all

/-- Expense total after appending one transaction row. -/
theorem expenseSum_insert (db : DB) (t : Transaction) (wid : Nat) :
    expenseSum (dbInsertTx db t) wid = expenseSum db wid +
      (if t.walletID == wid && t.type == "expense" then t.amount else 0) := by
  unfold expenseSum sumAmounts dbInsertTx
  rw [List.filter_append, List.map_append, List.sum_append]
  split <;> simp_all

/-- Deleting by a primary key that resolves to `t0` removes exactly `t0` when
the keys are distinct. -/
theorem filter_ne_eq_of_find {l : List Transaction} {i : Nat} {t0 : Transaction}
    (hnd : (l.map (fun t => t.id)).Nodup)
    (hf : l.find? (fun t => t.id == i) = some t0) :
    ∃ as bs, l = as ++ t0 :: bs ∧ l.filter (fun x => x.id ≠ i) = as ++ bs ∧ t0.id = i := by
  have hp : t0.id = i := by simpa using List.find?_some hf
  obtain ⟨as, bs, rfl, hAs⟩ := (List.find?_eq_some.mp hf).2
  refine ⟨as, bs, rfl, ?_, hp⟩
  rw [List.filter_append]
  have hAs2 : ∀ a ∈ as, a.id ≠ i := by
    intro a ha
    have := hAs a ha
    simpa using this
  have hBs : ∀ b ∈ bs, b.id ≠ i := by
    intro b hb hbi
    rw [List.map_append] at hnd
    have hdisj := (List.nodup_append.mp hnd).2.2
    have hmem1 : t0.id ∈ as.map (fun t => t.id) ++ (t0 :: bs).map (fun t => t.id) := by
      simp
    have ht0 : t0.id ∈ (t0 :: bs).map (fun t => t.id) := by simp
    have hcons := (List.nodup_append.mp hnd).2.1
    simp only [List.map_cons, List.nodup_cons] at hcons
    exact hcons.1 (by rw [hp, ← hbi] at hcons ⊢; exact List.mem_map_of_mem _ hb)
  rw [List.filter_cons]
  rw [if_neg (by simp [hp])]
  rw [List.filter_eq_self.mpr (by intro a ha; simpa using hAs2 a ha),
    List.filter_eq_self.mpr (by intro b hb; simpa using hBs b hb)]

/-- Income and expense totals after deleting one row by primary key. -/
theorem sums_delete (db : DB) (i : Nat) (t0 : Transaction) (wid : Nat)
    (hnd : (db.transactions.map (fun t => t.id)).Nodup)
    (hf : getTransaction db i = some t0) :
    incomeSum (dbDeleteTx db i) wid = incomeSum db wid -
      (if t0.walletID == wid && t0.type == "income" then t0.amount else 0) ∧
    expenseSum (dbDeleteTx db i) wid = expenseSum db wid -
      (if t0.walletID == wid && t0.type == "expense" then t0.amount else 0) := by
  obtain ⟨as, bs, hl, hfilter, hid⟩ := filter_ne_eq_of_find hnd hf
  constructor
  · unfold incomeSum sumAmounts dbDeleteTx
    rw [hfilter]
    conv_rhs => rw [hl]
    rw [List.filter_append, List.filter_append, List.filter_cons]
    rw [List.map_append, List.sum_append, List.map_append, List.sum_append]
    split
    · next hcond =>
      simp [hcond]
      ring
    · next hcond => simp
  · unfold expenseSum sumAmounts dbDeleteTx
    rw [hfilter]
    conv_rhs => rw [hl]
    rw [List.filter_append, List.filter_append, List.filter_cons]
    rw [List.map_append, List.sum_append, List.map_append, List.sum_append]
    split
    · next hcond =>
      simp [hcond]
      ring
    · next hcond => simp

/-- A successful Create preserves well-formedness and the per-wallet
conserved quantity. -/
theorem create_measure {now : Date} {newId : Nat} {faults : CreateTxFaults}
    {input : CreateTransactionInput} {conn : PgConn} {t : Transaction} {conn2 : PgConn}
    (h : TransactionService.create now newId faults input conn = (.ok t, conn2))
    (hwf : WFdb conn.db) :
    WFdb conn2.db ∧ ∀ wid, ledgerMeasure conn2.db wid = ledgerMeasure conn.db wid := by
  obtain ⟨w, hw, hact, hbal, hwid0, hty, hamt, ht, hdup, hdb⟩ := create_ok_state h
  have hwidw : w.id = input.walletID := by simpa using List.find?_some hw
  have htid : t.walletID = input.walletID := by rw [ht]
  have httype : t.type = input.type := by rw [ht]
  have htamt : t.amount = input.amount := by rw [ht]
  have htnew : t.id = newId := by rw [ht]
  have hnotin : ∀ x ∈ conn.db.transactions, x.id ≠ newId := by
    intro x hx hxi
    have hany : conn.db.transactions.any (fun x => x.id == newId) = true := by
      rw [List.any_eq_true]
      exact ⟨x, hx, by simp [hxi]⟩
    rw [hany] at hdup
    cases hdup
  have htx2 : conn2.db.transactions = conn.db.transactions ++ [t] := by
    rw [hdb]; rfl
  constructor
  · constructor
    · rw [htx2, List.map_append]
      rw [List.nodup_append]
      refine ⟨hwf.1, by simp, ?_⟩
      intro a ha
      simp only [List.mem_map] at ha
      obtain ⟨x, hx, rfl⟩ := ha
      simp only [List.map_cons, List.map_nil, List.mem_singleton]
      rw [htnew]
      exact hnotin x hx
    · intro x hx
      rw [htx2] at hx
      rcases List.mem_append.mp hx with hx | hx
      · exact hwf.2 x hx
      · rw [List.mem_singleton.mp hx, httype]
        exact hty
  · intro wid
    unfold ledgerMeasure
    have hinc : incomeSum conn2.db wid = incomeSum (dbInsertTx conn.db t) wid := by
      unfold incomeSum sumAmounts dbInsertTx
      rw [htx2]
    have hexp : expenseSum conn2.db wid = expenseSum (dbInsertTx conn.db t) wid := by
      unfold expenseSum sumAmounts dbInsertTx
      rw [htx2]
    by_cases hcase : wid = input.walletID
    · subst hcase
      have hgw : getWallet conn2.db input.walletID = some { w with balance :=
          (if input.type = "income" then w.balance + input.amount
           else w.balance - input.amount) } := by
        rw [hdb, ← hwidw]
        rw [(getWallet_after_updateBalance _ w.id _).1]
        have hg : getWallet (dbInsertTx conn.db t) w.id = some w := by
          rw [hwidw]; exact hw
        rw [hg]
        rfl
      rw [hgw, hw]
      simp only [Option.map_some', Option.some.injEq]
      rw [hinc, hexp, incomeSum_insert, expenseSum_insert]
      have hty2 : input.type = "income" ∨ input.type = "expense" := by
        simpa [txTypeIsValid] using hty
      rcases hty2 with hty2 | hty2
      · simp [htid, httype, htamt, hty2]
      · simp [htid, httype, htamt, hty2]
        try ring
    · have hne : wid ≠ w.id := fun hh => hcase (hh.trans hwidw)
      have hgw : getWallet conn2.db wid = getWallet conn.db wid := by
        rw [hdb]
        rw [(getWallet_after_updateBalance _ w.id _).2 wid hne]
        rfl
      have hcond : (t.walletID == wid) = false := by
        rw [htid]
        simp only [beq_eq_false_iff_ne, ne_eq]
        exact fun hh => hcase hh.symm
      rw [hgw, hinc, hexp, incomeSum_insert, expenseSum_insert]
      simp [hcond]

/-- A successful Delete preserves well-formedness and the per-wallet
conserved quantity. -/
theorem delete_measure {faults : DeleteTxFaults} {i : Nat} {conn conn2 : PgConn}
    (h : TransactionService.delete faults i conn = (.ok (), conn2))
    (hwf : WFdb conn.db) :
    WFdb conn2.db ∧ ∀ wid, ledgerMeasure conn2.db wid = ledgerMeasure conn.db wid := by
  obtain ⟨t0, w, hft, hfw, hmem, hdb⟩ := delete_ok_state h
  have hwidw : w.id = t0.walletID := by simpa using List.find?_some hfw
  have ht0mem : t0 ∈ conn.db.transactions := List.mem_of_find?_eq_some hft
  have ht0ty := hwf.2 t0 ht0mem
  have htx2 : conn2.db.transactions
      = conn.db.transactions.filter (fun x => x.id ≠ i) := by
    rw [hdb]; rfl
  constructor
  · constructor
    · have hsub : conn2.db.transactions.Sublist conn.db.transactions := by
        rw [htx2]; exact List.filter_sublist _
      exact hwf.1.sublist (hsub.map _)
    · intro x hx
      rw [htx2] at hx
      exact hwf.2 x (List.mem_of_mem_filter hx)
  · intro wid
    unfold ledgerMeasure
    obtain ⟨hi, he⟩ := sums_delete conn.db i t0 wid hwf.1 hft
    have hinc : incomeSum conn2.db wid = incomeSum (dbDeleteTx conn.db i) wid := by
      unfold incomeSum sumAmounts dbDeleteTx
      rw [htx2]
    have hexp : expenseSum conn2.db wid = expenseSum (dbDeleteTx conn.db i) wid := by
      unfold expenseSum sumAmounts dbDeleteTx
      rw [htx2]
    by_cases hcase : wid = t0.walletID
    · subst hcase
      have hgw : getWallet conn2.db t0.walletID = some { w with balance :=
          (if t0.type = "income" then w.balance - t0.amount
           else w.balance + t0.amount) } := by
        rw [hdb, ← hwidw]
        rw [(getWallet_after_updateBalance _ w.id _).1]
        have hg : getWallet (dbDeleteTx conn.db i) w.id = some w := by
          rw [hwidw]; exact hfw
        rw [hg]
        rfl
      rw [hgw, hfw]
      simp only [Option.map_some', Option.some.injEq]
      rw [hinc, hexp, hi, he]
      have hty2 : t0.type = "income" ∨ t0.type = "expense" := by
        simpa [txTypeIsValid] using ht0ty
      rcases hty2 with hty2 | hty2
      · simp [hty2]
      · simp [hty2]
        try ring
    · have hne : wid ≠ w.id := fun hh => hcase (hh.trans hwidw)
      have hgw : getWallet conn2.db wid = getWallet conn.db wid := by
        rw [hdb]
        rw [(getWallet_after_updateBalance _ w.id _).2 wid hne]
        rfl
      have hcond : (t0.walletID == wid) = false := by
        simp only [beq_eq_false_iff_ne, ne_eq]
        exact fun hh => hcase hh.symm
      rw [hgw, hinc, hexp, hi, he]
      simp [hcond]

/-- Any fault-free operation sequence that succeeds preserves
well-formedness and the per-wallet conserved quantity. -/
theorem runOps_measure (now : Date) (ops : List LedgerOp) :
    ∀ {conn conn2 : PgConn}, WFdb conn.db → runOps now conn ops = .ok conn2 →
    WFdb conn2.db ∧ ∀ wid, ledgerMeasure conn2.db wid = ledgerMeasure conn.db wid := by
  induction ops with
  | nil =>
    intro conn conn2 hwf hrun
    simp only [runOps, Except.ok.injEq] at hrun
    rw [← hrun]
    exact ⟨hwf, fun _ => rfl⟩
  | cons op rest ih =>
    intro conn conn2 hwf hrun
    cases op with
    | createOp nid inp =>
      simp only [runOps] at hrun
      rcases hc : TransactionService.create now nid noCreateTxFaults inp conn with ⟨res, c⟩
      rw [hc] at hrun
      cases res with
      | error e => simp at hrun
      | ok t =>
        simp only at hrun
        obtain ⟨hwf2, hmeas⟩ := create_measure hc hwf
        obtain ⟨hwf3, hmeas2⟩ := ih hwf2 hrun
        exact ⟨hwf3, fun wid => (hmeas2 wid).trans (hmeas wid)⟩
    | deleteOp i =>
      simp only [runOps] at hrun
      rcases hc : TransactionService.delete noDeleteTxFaults i conn with ⟨res, c⟩
      rw [hc] at hrun
      cases res with
      | error e => simp at hrun
      | ok u =>
        simp only at hrun
        obtain ⟨hwf2, hmeas⟩ := delete_measure hc hwf
        obtain ⟨hwf3, hmeas2⟩ := ih hwf2 hrun
        exact ⟨hwf3, fun wid => (hmeas2 wid).trans (hmeas wid)⟩

/-- C4: balance conservation.  For any sequence of successful fault-free
creates and deletes starting from a well-formed store in which the observed
wallet has no recorded transactions, the final balance equals the initial
balance plus the income total minus the expense total over the currently
undeleted transactions of that wallet. -/
theorem c4_balance_conservation (now : Date) (ops : List LedgerOp)
    (conn conn2 : PgConn) (wid : Nat) (w0 w2 : Wallet)
    (hwf : WFdb conn.db)
    (hinit : conn.db.transactions.filter (fun t => t.walletID == wid) = [])
    (hrun : runOps now conn ops = .ok conn2)
    (hw0 : getWallet conn.db wid = some w0)
    (hw2 : getWallet conn2.db wid = some w2) :
    w2.balance = w0.balance + incomeSum conn2.db wid - expenseSum conn2.db wid := by
  have hm := (runOps_measure now ops hwf hrun).2 wid
  unfold ledgerMeasure at hm
  rw [hw0, hw2] at hm
  simp only [Option.map_some', Option.some.injEq] at hm
  have hall : ∀ t ∈ conn.db.transactions, (t.walletID == wid) = false := by
    intro t ht
    have hnp := List.filter_eq_nil_iff.mp hinit t ht
    simpa using hnp
  have hi0 : incomeSum conn.db wid = 0 := by
    unfold incomeSum sumAmounts
    have hf : conn.db.transactions.filter
        (fun t => t.walletID == wid && t.type == "income") = [] := by
      apply List.filter_eq_nil_iff.mpr
      intro t ht
      simp [hall t ht]
    rw [hf]
    simp
  have he0 : expenseSum conn.db wid = 0 := by
    unfold expenseSum sumAmounts
    have hf : conn.db.transactions.filter
        (fun t => t.walletID == wid && t.type == "expense") = [] := by
      apply List.filter_eq_nil_iff.mpr
      intro t ht
      simp [hall t ht]
    rw [hf]
    simp
  rw [hi0, he0] at hm
  linarith [hm]

/-- C4 witness: from balance 50, a 100 income, a 30 expense and the deletion
of the income leave balance 20 = 50 + 0 - 30 over the remaining rows. -/
theorem c4_balance_conservation_witness :
    runOps d0 c4Conn0 c4Ops = .ok c4Conn3 ∧
    (getWallet c4Conn0.db 1).map Wallet.balance = some 50 ∧
    (getWallet c4Conn3.db 1).map Wallet.balance = some 20 ∧
    incomeSum c4Conn3.db 1 = 0 ∧
    expenseSum c4Conn3.db 1 = 30 ∧
    (mkWallet 1 20).balance
      = (mkWallet 1 50).balance + incomeSum c4Conn3.db 1 - expenseSum c4Conn3.db 1 := by
  have h1 : TransactionService.create d0 10 noCreateTxFaults
      (mkTxInput 1 "income" 100) c4Conn0 = (.ok c4Tx1, c4Conn1) := by
    simp [TransactionService.create, getWallet, mkTxInput, mkConn, mkWallet, d0,
      c4Conn0, c4Conn1, c4Tx1, noCreateTxFaults, Transaction.validate, txTypeIsValid,
      goTrimSpace, goIsSpace, withTransaction, pgBegin, pgRollback, pgCommit,
      txRepoCreate, walletRepoUpdateBalance, poolExec, applyWrite, applyWrites,
      Except.map, Option.getD, List.find?, List.any, List.filter, List.map]
    norm_num
  have h2 : TransactionService.create d0 11 noCreateTxFaults
      (mkTxInput 1 "expense" 30) c4Conn1 = (.ok c4Tx2, c4Conn2) := by
    simp [TransactionService.create, getWallet, mkTxInput, mkConn, mkWallet, d0,
      c4Conn1, c4Conn2, c4Tx1, c4Tx2, noCreateTxFaults, Transaction.validate,
      txTypeIsValid, goTrimSpace, goIsSpace, withTransaction, pgBegin, pgRollback,
      pgCommit, txRepoCreate, walletRepoUpdateBalance, poolExec, applyWrite,
      applyWrites, Except.map, Option.getD, List.find?, List.any, List.filter, List.map]
    norm_num
    simp [applyWrites]
  have h3 : TransactionService.delete noDeleteTxFaults 10 c4Conn2
      = (.ok (), c4Conn3) := by
    simp [TransactionService.delete, getWallet, getTransaction, mkWallet, d0,
      c4Conn2, c4Conn3, c4Tx1, c4Tx2, noDeleteTxFaults, withTransaction, pgBegin,
      pgRollback, pgCommit, txRepoDelete, walletRepoUpdateBalance, poolExec,
      applyWrite, applyWrites, Except.map, List.find?, List.any, List.filter, List.map]
    norm_num
  have hrun : runOps d0 c4Conn0 c4Ops = .ok c4Conn3 := by
    simp [c4Ops, runOps, h1, h2, h3]
  refine ⟨hrun,
    by simp [c4Conn0, mkConn, getWallet, mkWallet, List.find?],
    by simp [c4Conn3, getWallet, mkWallet, List.find?],
    by simp [incomeSum, sumAmounts, c4Conn3, c4Tx2, List.filter],
    by simp [expenseSum, sumAmounts, c4Conn3, c4Tx2, List.filter],
    ?_⟩
  exact c4_balance_conservation d0 c4Ops c4Conn0 c4Conn3 1 (mkWallet 1 50)
    (mkWallet 1 20)
    (by constructor <;> simp [c4Conn0, mkConn])
    rfl hrun
    (by simp [c4Conn0, mkConn, getWallet, mkWallet, List.find?])
    (by simp [c4Conn3, getWallet, mkWallet, List.find?])

end WalletTwin
